import Mathlib

/-!
Verification development for the multi-source synchronization and
cross-system correlation engine of the monitoring portal
(apps/jira, apps/sentry, apps/sonarcloud services and clients).

The Python services are shallowly embedded: databases are lists of rows,
`update_or_create` is an explicit upsert on a natural key, HTTP clients are
functions from request parameters to responses, exceptions are `Option` or
explicit error branches, and wall-clock readings are explicit parameters.
-/

namespace SRE

/-! ## Character and list helpers -/

/-- A decimal digit character, mirroring the digit checks of CPython's
C-accelerated `datetime.fromisoformat` parser. -/
def isDigitCh (c : Char) : Bool := '0' ≤ c && c ≤ '9'

/-- Numeric value of a digit character. -/
def digitVal (c : Char) : Nat := c.toNat - '0'.toNat

/-- Value of a fixed-width, digits-only slice; `none` if the slice is empty or
has a non-digit (the parse then fails with ValueError in Python). -/
def parseFixedNat (l : List Char) : Option Nat :=
  if l ≠ [] ∧ l.all isDigitCh then some (l.foldl (fun a c => a * 10 + digitVal c) 0)
  else none

/-- Python `str.replace(c, repl)` for a one-character pattern: every
occurrence of `c` is replaced by `repl`, scanning left to right. -/
def replaceChar (c : Char) (repl : List Char) : List Char → List Char
  | [] => []
  | x :: xs => if x = c then repl ++ replaceChar c repl xs else x :: replaceChar c repl xs

/-! ## CPython `datetime` model (apps/jira/client.py, apps/sentry/client.py)

`parse_jira_datetime` and `parse_datetime` wrap `datetime.fromisoformat`,
falling back to `datetime.now(timezone.utc)` on `ValueError`/`TypeError`.
We model a `datetime` value and the pre-3.11 `fromisoformat` grammar
(`YYYY-MM-DD[*HH[:MM[:SS[.fff[fff]]]][+HH:MM[:SS[.ffffff]]]]`); a parse
failure is `none`. -/

/-- A timezone-aware-or-naive Python `datetime` value.  The offset, when
present, is in microseconds (Python's `timezone` accepts offsets with
minute, second and microsecond components). -/
structure PyDateTime where
  year : Nat
  month : Nat
  day : Nat
  hour : Nat
  minute : Nat
  second : Nat
  microsecond : Nat
  tzOffsetMicros : Option Int
deriving DecidableEq, Repr

/-- Gregorian leap-year rule used by `datetime`'s day-of-month validation. -/
def isLeapYear (y : Nat) : Bool := y % 4 = 0 && (y % 100 ≠ 0 || y % 400 = 0)

/-- Days in a month, as validated by the `datetime` constructor. -/
def daysInMonth (y m : Nat) : Nat :=
  if m = 2 then (if isLeapYear y then 29 else 28)
  else if m = 4 ∨ m = 6 ∨ m = 9 ∨ m = 11 then 30
  else 31

/-- Model of `_parse_isoformat_date`: exactly `YYYY-MM-DD`, all digits, dashes at
positions 4 and 7. -/
def parseIsoDate (l : List Char) : Option (Nat × Nat × Nat) :=
  match l with
  | [y1, y2, y3, y4, s1, m1, m2, s2, d1, d2] =>
    if s1 = '-' ∧ s2 = '-' then
      match parseFixedNat [y1, y2, y3, y4], parseFixedNat [m1, m2], parseFixedNat [d1, d2] with
      | some y, some m, some d => some (y, m, d)
      | _, _, _ => none
    else none
  | _ => none

/-- The 3-or-6-digit fraction after the decimal point in
`_parse_hh_mm_ss_ff`; a 3-digit fraction is scaled to microseconds. -/
def parseFrac (l : List Char) : Option Nat :=
  if l.length = 3 then (parseFixedNat l).map (· * 1000)
  else if l.length = 6 then parseFixedNat l
  else none

/-- Model of `_parse_hh_mm_ss_ff`: `HH[:MM[:SS[.fff[fff]]]]`, returning
(hour, minute, second, microsecond). -/
def parseHhMmSsFf (l : List Char) : Option (Nat × Nat × Nat × Nat) :=
  match l with
  | h1 :: h2 :: rest =>
    if isDigitCh h1 && isDigitCh h2 then
      let hh := digitVal h1 * 10 + digitVal h2
      match rest with
      | [] => some (hh, 0, 0, 0)
      | ':' :: m1 :: m2 :: rest2 =>
        if isDigitCh m1 && isDigitCh m2 then
          let mm := digitVal m1 * 10 + digitVal m2
          match rest2 with
          | [] => some (hh, mm, 0, 0)
          | ':' :: c1 :: c2 :: rest3 =>
            if isDigitCh c1 && isDigitCh c2 then
              let ss := digitVal c1 * 10 + digitVal c2
              match rest3 with
              | [] => some (hh, mm, ss, 0)
              | '.' :: frac => (parseFrac frac).map (fun f => (hh, mm, ss, f))
              | _ => none
            else none
          | _ => none
        else none
      | _ => none
    else none
  | _ => none

/-- Model of `_parse_isoformat_time`: the time-of-day part plus an optional
`±HH:MM[:SS[.ffffff]]` offset.  Following the CPython source, a `-`
anywhere in the time string is preferred over a `+` as the offset
separator, the offset substring must have length 5, 8 or 15, and the
resulting `timezone` offset must be strictly between -24 and +24 hours. -/
def parseIsoTime (l : List Char) : Option ((Nat × Nat × Nat × Nat) × Option Int) :=
  if l.length < 2 then none
  else
    let tzPos : Option Nat :=
      match l.findIdx? (· = '-') with
      | some i => some (i + 1)
      | none => (l.findIdx? (· = '+')).map (· + 1)
    match tzPos with
    | none => (parseHhMmSsFf l).map (fun t => (t, none))
    | some p =>
      let timestr := l.take (p - 1)
      let tzstr := l.drop p
      match parseHhMmSsFf timestr with
      | none => none
      | some t =>
        if tzstr.length = 5 ∨ tzstr.length = 8 ∨ tzstr.length = 15 then
          match parseHhMmSsFf tzstr with
          | none => none
          | some (th, tm, ts, tf) =>
            let sign : Int := if l.get? (p - 1) = some '-' then -1 else 1
            let magnitude : Nat := (th * 3600 + tm * 60 + ts) * 1000000 + tf
            if magnitude < 24 * 3600 * 1000000 then some (t, some (sign * magnitude))
            else none
        else none

/-- Model of `datetime.fromisoformat` on a character list: date from the first 10
characters, one ignored separator character, time from index 11 on; the
`datetime` constructor's range checks are applied at the end.  A `none`
models the `ValueError` raised on any malformed input. -/
def fromisoformatL (l : List Char) : Option PyDateTime :=
  match parseIsoDate (l.take 10) with
  | none => none
  | some (y, mo, d) =>
    let timePart : Option ((Nat × Nat × Nat × Nat) × Option Int) :=
      if l.length ≤ 10 then
        if l.length = 10 then some ((0, 0, 0, 0), none) else none
      else if l.length = 11 then none
      else parseIsoTime (l.drop 11)
    match timePart with
    | none => none
    | some ((hh, mm, ss, ff), tz) =>
      if 1 ≤ y ∧ y ≤ 9999 ∧ 1 ≤ mo ∧ mo ≤ 12 ∧ 1 ≤ d ∧ d ≤ daysInMonth y mo ∧
          hh ≤ 23 ∧ mm ≤ 59 ∧ ss ≤ 59 ∧ ff ≤ 999999 then
        some ⟨y, mo, d, hh, mm, ss, ff, tz⟩
      else none

/-- Model of `datetime.fromisoformat` on a string. -/
def fromisoformat (s : String) : Option PyDateTime := fromisoformatL s.data

/-- The preprocessing in `parse_jira_datetime` (apps/jira/client.py):
a trailing `+0000` is rewritten to `Z`, then every `Z` is rewritten to
`+00:00`. -/
def jiraPreprocess (s : String) : List Char :=
  let l := s.data
  let l1 := if ("+0000".data).isSuffixOf l then l.take (l.length - 5) ++ ['Z'] else l
  replaceChar 'Z' "+00:00".data l1

/-- Model of `parse_jira_datetime` (apps/jira/client.py): parse the preprocessed
string; on failure return the current UTC time, passed here explicitly. -/
def parse_jira_datetime (s : String) (now : PyDateTime) : PyDateTime :=
  match fromisoformatL (jiraPreprocess s) with
  | some d => d
  | none => now

/-- The preprocessing in `parse_datetime` (apps/sentry/client.py): a
trailing `Z` is replaced by `+00:00`. -/
def sentryPreprocess (s : String) : List Char :=
  let l := s.data
  if ("Z".data).isSuffixOf l then l.take (l.length - 1) ++ "+00:00".data else l

/-- Model of `parse_datetime` (apps/sentry/client.py): parse the preprocessed string;
on failure return the current UTC time, passed here explicitly. -/
def parse_datetime (s : String) (now : PyDateTime) : PyDateTime :=
  match fromisoformatL (sentryPreprocess s) with
  | some d => d
  | none => now

/-! ## Django `update_or_create`

`Model.objects.update_or_create(lookup..., defaults=...)` looks a row up by
the lookup key; if found, its `defaults` fields are overwritten, otherwise a
new row is appended.  The database table is a list of rows; `key` projects a
row to its natural key. -/

/-- Generic `update_or_create`: rows matching `k` are overwritten through
`upd` in place, otherwise the row `new` is appended. -/
def updateOrCreate {α K : Type} [DecidableEq K] (key : α → K) (k : K)
    (upd : α → α) (new : α) (db : List α) : List α :=
  if db.any (fun r => key r = k) then db.map (fun r => if key r = k then upd r else r)
  else db ++ [new]

/-! ## JIRA data model (apps/jira/models.py)

Rows carry their natural key plus the fields written by sync.  Foreign keys
are represented by the parent's natural key: a `JiraProjectRow` is unique on
(organization, jira_key) and a `JiraIssueRow` on (project, jira_key), the
project itself being identified by (organization, project jira_key). -/

/-- The `defaults` written by `_sync_projects`' `update_or_create`. -/
structure JiraProjectDefaults where
  jiraId : String
  name : String
  description : String
  projectType : String
  leadAccountId : String
  leadDisplayName : String
  categoryName : String
  selfUrl : String
  avatarUrl : String
deriving DecidableEq, Repr

/-- A `jira_projects` row.  `syncEnabled`/`syncIssues`/`maxIssuesToSync`
have Django defaults true/true/1000 and are not overwritten by sync; the
statistics counters are recomputed by `_update_project_statistics`. -/
structure JiraProjectRow where
  org : Nat
  jiraKey : String
  defaults : JiraProjectDefaults
  syncEnabled : Bool
  syncIssues : Bool
  maxIssuesToSync : Nat
  totalIssues : Nat
  openIssues : Nat
  inProgressIssues : Nat
  doneIssues : Nat
  lastIssueSync : Option Int
deriving DecidableEq, Repr

/-- The `defaults` written by `_sync_single_issue`'s `update_or_create`. -/
structure JiraIssueDefaults where
  jiraId : String
  summary : String
  description : String
  issueType : String
  status : String
  statusCategory : String
  priority : String
  assigneeAccountId : String
  assigneeDisplayName : String
  assigneeEmail : String
  reporterAccountId : String
  reporterDisplayName : String
  reporterEmail : String
  jiraCreated : PyDateTime
  jiraUpdated : PyDateTime
  resolutionDate : Option PyDateTime
  selfUrl : String
  labels : List String
  components : List String
  fixVersions : List String
deriving DecidableEq, Repr

/-- A `jira_issues` row, unique on (org, projectKey, jiraKey). -/
structure JiraIssueRow where
  org : Nat
  projectKey : String
  jiraKey : String
  defaults : JiraIssueDefaults
deriving DecidableEq, Repr

/-- Natural key of a project row: (organization, jira_key). -/
def projectKeyOf (r : JiraProjectRow) : Nat × String := (r.org, r.jiraKey)

/-- Natural key of an issue row: (project, jira_key). -/
def issueKeyOf (r : JiraIssueRow) : Nat × String × String :=
  (r.org, r.projectKey, r.jiraKey)

/-! ## JIRA remote payloads and field extraction (apps/jira/services.py)

Payload structures mirror the `.get(...)` accesses of the service: fields
read with a truthiness guard are `Option`s; fields read with a string
default carry the raw string.  Nested projections that the service
collapses immediately (`avatarUrls['48x48']`, `components[i]['name']`,
the plain text extracted from the ADF description) are carried in
collapsed form. -/

structure JiraUserPayload where
  accountId : String
  displayName : String
  emailAddress : String
deriving DecidableEq, Repr

structure JiraProjectPayload where
  key : String
  id : String
  name : String
  description : String
  projectTypeKey : String
  lead : Option JiraUserPayload
  projectCategoryName : Option String
  selfUrl : String
  avatarUrl48 : String
deriving DecidableEq, Repr

structure JiraIssuePayload where
  key : String
  id : String
  summary : String
  descriptionText : Option String
  issuetypeName : Option String
  statusName : Option String
  statusCategoryKey : Option String
  priorityName : Option String
  assignee : Option JiraUserPayload
  reporter : Option JiraUserPayload
  created : String
  updated : String
  resolutiondate : Option String
  selfUrl : String
  labels : List String
  componentNames : List String
  fixVersionNames : List String
deriving DecidableEq, Repr

/-- Field extraction of `_sync_projects` for one project payload. -/
def jiraProjectDefaultsOf (p : JiraProjectPayload) : JiraProjectDefaults :=
  { jiraId := p.id
    name := p.name
    description := p.description
    projectType := p.projectTypeKey
    leadAccountId := match p.lead with | some u => u.accountId | none => ""
    leadDisplayName := match p.lead with | some u => u.displayName | none => ""
    categoryName := match p.projectCategoryName with | some n => n | none => ""
    selfUrl := p.selfUrl
    avatarUrl := p.avatarUrl48 }

/-- Field extraction of `_sync_single_issue` for one issue payload.  The
`.get(..., default)` fallbacks are 'Task', 'Open', 'new', 'Medium'; the
timestamps go through `parse_jira_datetime`, whose failure fallback is the
current time `now`; a falsy `resolutiondate` is kept as NULL. -/
def jiraIssueDefaultsOf (p : JiraIssuePayload) (now : PyDateTime) : JiraIssueDefaults :=
  { jiraId := p.id
    summary := p.summary
    description := match p.descriptionText with | some d => d | none => ""
    issueType := match p.issuetypeName with | some t => t | none => "Task"
    status := match p.statusName with | some s => s | none => "Open"
    statusCategory := match p.statusCategoryKey with | some k => k | none => "new"
    priority := match p.priorityName with | some pr => pr | none => "Medium"
    assigneeAccountId := match p.assignee with | some u => u.accountId | none => ""
    assigneeDisplayName := match p.assignee with | some u => u.displayName | none => ""
    assigneeEmail := match p.assignee with | some u => u.emailAddress | none => ""
    reporterAccountId := match p.reporter with | some u => u.accountId | none => ""
    reporterDisplayName := match p.reporter with | some u => u.displayName | none => ""
    reporterEmail := match p.reporter with | some u => u.emailAddress | none => ""
    jiraCreated := parse_jira_datetime p.created now
    jiraUpdated := parse_jira_datetime p.updated now
    resolutionDate := match p.resolutiondate with
      | some s => if s = "" then none else some (parse_jira_datetime s now)
      | none => none
    selfUrl := p.selfUrl
    labels := p.labels
    components := p.componentNames
    fixVersions := p.fixVersionNames }

/-- Upsert of one project by (organization, key).  On create, the Django
defaults populate the non-`defaults` fields. -/
def upsertProject (org : Nat) (p : JiraProjectPayload) (db : List JiraProjectRow) :
    List JiraProjectRow :=
  updateOrCreate projectKeyOf (org, p.key)
    (fun r => { r with defaults := jiraProjectDefaultsOf p })
    { org := org, jiraKey := p.key, defaults := jiraProjectDefaultsOf p,
      syncEnabled := true, syncIssues := true, maxIssuesToSync := 1000,
      totalIssues := 0, openIssues := 0, inProgressIssues := 0, doneIssues := 0,
      lastIssueSync := none } db

/-- Model of `JiraSyncService._sync_projects` over an already-fetched payload list:
payloads with a missing key or id are skipped with a warning, the rest are
upserted; `synced_count` counts created and updated rows alike. -/
def jiraSyncProjects (org : Nat) (db : List JiraProjectRow) :
    List JiraProjectPayload → List JiraProjectRow × Nat
  | [] => (db, 0)
  | p :: ps =>
    if p.key = "" ∨ p.id = "" then jiraSyncProjects org db ps
    else
      let step := jiraSyncProjects org (upsertProject org p db) ps
      (step.1, step.2 + 1)

/-- The `update_or_create` call of `_sync_single_issue`: upsert by
(project, key), every `defaults` field overwritten from the payload. -/
def upsertIssue (org : Nat) (projectKey : String) (now : PyDateTime)
    (p : JiraIssuePayload) (db : List JiraIssueRow) : List JiraIssueRow :=
  updateOrCreate issueKeyOf (org, projectKey, p.key)
    (fun r => { r with defaults := jiraIssueDefaultsOf p now })
    { org := org, projectKey := projectKey, jiraKey := p.key,
      defaults := jiraIssueDefaultsOf p now } db

/-- Model of `JiraSyncService._sync_single_issue`: `false` when the key or id is
missing (the row is skipped); otherwise the issue is upserted by
(project, key) and `true` is returned.  The function's own
try/except means any internal failure also yields `false` without
propagating; extraction here is total, so that branch is unreachable. -/
def syncSingleIssue (org : Nat) (projectKey : String) (now : PyDateTime)
    (db : List JiraIssueRow) (p : JiraIssuePayload) : List JiraIssueRow × Bool :=
  if p.key = "" ∨ p.id = "" then (db, false)
  else (upsertIssue org projectKey now p db, true)

/-- The per-page body of `_sync_project_issues`: every issue of the page is
processed inside its own try/except, incrementing `synced_count` only on
success, so one bad issue never aborts the rest of the page. -/
def processIssuesPage (org : Nat) (projectKey : String) (now : PyDateTime) :
    List JiraIssueRow → List JiraIssuePayload → List JiraIssueRow × Nat
  | db, [] => (db, 0)
  | db, p :: ps =>
    let step := syncSingleIssue org projectKey now db p
    let rest := processIssuesPage org projectKey now step.1 ps
    (rest.1, if step.2 then rest.2 + 1 else rest.2)

/-- One page of the JIRA `search` endpoint: the issue list plus the
server-reported `total`. -/
structure JiraSearchPage where
  issues : List JiraIssuePayload
  total : Nat
deriving Repr

/-- The pagination loop of `JiraSyncService._sync_project_issues`, the
Python `while True` given explicit fuel: `none` means the loop has not
exited within `fuel` iterations (the source has no page ceiling).
`max_results` is fixed at 100 in the source; the loop breaks on a failed
request, an empty page, `start_at + max_results >= total`, or
`synced_count >= max_issues_to_sync`. -/
def jiraIssuesLoop (server : Nat → Option JiraSearchPage) (org : Nat) (projectKey : String)
    (maxIssues : Nat) (now : PyDateTime) :
    List JiraIssueRow → Nat → Nat → Nat → Option (List JiraIssueRow × Nat)
  | _, _, _, 0 => none
  | db, startAt, synced, fuel + 1 =>
    match server startAt with
    | none => some (db, synced)
    | some page =>
      if page.issues = [] then some (db, synced)
      else
        let step := processIssuesPage org projectKey now db page.issues
        let synced' := synced + step.2
        if page.total ≤ startAt + 100 ∨ maxIssues ≤ synced' then some (step.1, synced')
        else jiraIssuesLoop server org projectKey maxIssues now step.1 (startAt + 100) synced' fuel

/-- Model of `_update_project_statistics` plus the `last_issue_sync` stamp: the
project's counters are recomputed by a count pass over its issues, keyed
by `status_category`. -/
def updateProjectStatistics (issues : List JiraIssueRow) (tMid : Int)
    (r : JiraProjectRow) : JiraProjectRow :=
  let mine := issues.filter (fun i => i.org = r.org ∧ i.projectKey = r.jiraKey)
  { r with
    totalIssues := mine.length
    openIssues := (mine.filter (fun i => i.defaults.statusCategory = "new")).length
    inProgressIssues :=
      (mine.filter (fun i => i.defaults.statusCategory = "indeterminate")).length
    doneIssues := (mine.filter (fun i => i.defaults.statusCategory = "done")).length
    lastIssueSync := some tMid }

/-- The issue phase of `sync_all`: for each project of the snapshot taken by
the queryset, run the pagination loop, refresh that project's statistics,
and accumulate the synced count.  Fuel exhaustion (`none`) of any loop
propagates: the Python loop would still be running. -/
def jiraSyncIssuesForProjects (server : String → Nat → Option JiraSearchPage) (org : Nat)
    (now : PyDateTime) (tMid : Int) (fuel : Nat) :
    List JiraProjectRow → List JiraProjectRow → List JiraIssueRow → Nat →
    Option (List JiraProjectRow × List JiraIssueRow × Nat)
  | [], projDb, issueDb, n => some (projDb, issueDb, n)
  | pr :: rest, projDb, issueDb, n =>
    match jiraIssuesLoop (server pr.jiraKey) org pr.jiraKey pr.maxIssuesToSync now
        issueDb 0 0 fuel with
    | none => none
    | some (issueDb', k) =>
      let projDb' := projDb.map (fun r =>
        if projectKeyOf r = projectKeyOf pr then updateProjectStatistics issueDb' tMid r
        else r)
      jiraSyncIssuesForProjects server org now tMid fuel rest projDb' issueDb' (n + k)

/-! ## JIRA sync ledger and organization state -/

/-- Model of `JiraSyncLog.Status` / `SentrySyncLog.Status`: started, success, failed,
partial success (source value 'partial', spelled `partly` here since that
word is reserved in Lean). -/
inductive SyncStatus
  | started
  | success
  | failed
  | partly
deriving DecidableEq, Repr

/-- A `jira_sync_logs` row (`JiraSyncLog`): `error_details` is a JSON field
defaulting to empty; `started_at` is set on creation (`auto_now_add`). -/
structure JiraSyncLogRec where
  status : SyncStatus
  projectsSynced : Nat
  issuesSynced : Nat
  errorMessage : String
  errorDetails : List String
  startedAt : Int
  completedAt : Option Int
  durationSeconds : Option Int
deriving DecidableEq, Repr

/-- The organization fields mutated by `sync_all` and `_test_connection`. -/
structure JiraOrgState where
  connectionStatus : String
  connectionError : String
  lastSync : Option Int
  lastConnectionTest : Option Int
deriving DecidableEq, Repr

/-- The durable state a JIRA sync run reads and writes. -/
structure JiraSyncState where
  org : JiraOrgState
  projects : List JiraProjectRow
  issues : List JiraIssueRow
  log : JiraSyncLogRec
deriving DecidableEq, Repr

/-- The environment of one `sync_all` invocation: client responses and the
wall-clock readings, made explicit. -/
structure JiraEnv where
  orgId : Nat
  probe : Bool × String
  projectsResp : Bool × List JiraProjectPayload
  issuesServer : String → Nat → Option JiraSearchPage
  issuesFuel : Nat
  now : PyDateTime
  tMid : Int
  t0 : Int
  t1 : Int

/-- The `finally` block of `sync_all`: `completed_at` is stamped and
`duration` computed once from `completed_at - started_at` (`started_at` is
always set, being `auto_now_add`). -/
def finalizeLog (log : JiraSyncLogRec) (t1 : Int) : JiraSyncLogRec :=
  { log with completedAt := some t1
             durationSeconds := some (t1 - log.startedAt) }

/-- Model of `JiraSyncService.sync_all`, with explicit try/except/finally and
`transaction.atomic`:

* `_test_connection` failure raises `Exception('JIRA connection failed: ...')`
  before any entity write; the except-branch records the failure on the
  organization and marks the log failed, the atomic block rolls back
  (nothing was written), the finally-branch finalizes the log;
* otherwise projects are synced (a failed `get_projects` yields count 0
  without raising), then issues for every project of the organization with
  `sync_enabled` and `sync_issues`, the log counters and status and the
  organization's `last_sync`/`connection_status` are set, and the
  finally-branch finalizes the log.

`none` models a run whose issue pagination never exits: then `finally`
never runs and no final state exists. -/
def jiraSyncAll (env : JiraEnv) (init : JiraSyncState) : Option JiraSyncState :=
  let log0 : JiraSyncLogRec :=
    { status := .started, projectsSynced := 0, issuesSynced := 0,
      errorMessage := "", errorDetails := [], startedAt := env.t0,
      completedAt := none, durationSeconds := none }
  if env.probe.1 then
    let org1 : JiraOrgState :=
      { init.org with connectionStatus := "connected", connectionError := "",
                      lastConnectionTest := some env.tMid }
    let projStep :=
      if env.projectsResp.1 then jiraSyncProjects env.orgId init.projects env.projectsResp.2
      else (init.projects, 0)
    let enabled := projStep.1.filter (fun r => r.org = env.orgId ∧ r.syncEnabled ∧ r.syncIssues)
    match jiraSyncIssuesForProjects env.issuesServer env.orgId env.now env.tMid env.issuesFuel
        enabled projStep.1 init.issues 0 with
    | none => none
    | some (projDb', issueDb', iCount) =>
      some { org := { org1 with lastSync := some env.tMid },
             projects := projDb',
             issues := issueDb',
             log := finalizeLog { log0 with status := .success,
                                            projectsSynced := projStep.2,
                                            issuesSynced := iCount } env.t1 }
  else
    let msg := "JIRA connection failed: " ++ env.probe.2
    let orgF : JiraOrgState :=
      { init.org with connectionStatus := "failed", connectionError := msg,
                      lastConnectionTest := some env.tMid }
    some { org := orgF,
           projects := init.projects,
           issues := init.issues,
           log := finalizeLog { log0 with status := .failed, errorMessage := msg } env.t1 }

/-! ## Sentry sync ledger (apps/sentry/services.py) -/

/-- A `SentrySyncLog` row. -/
structure SentrySyncLogRec where
  status : SyncStatus
  projectsSynced : Nat
  issuesSynced : Nat
  eventsSynced : Nat
  errorMessage : String
  startedAt : Int
  completedAt : Option Int
  durationSeconds : Option Int
deriving DecidableEq, Repr

/-- Model of `SentrySyncService.sync_all` at ledger granularity: the body outcome
(success with counts, or a raised exception message) is abstract; the
try/except/finally shape is explicit and the finally-branch finalizes the
log exactly once, computing `duration` from `completed_at - started_at`. -/
def sentrySyncAllLog (outcome : Except String (Nat × Nat × Nat)) (t0 t1 : Int) :
    SentrySyncLogRec :=
  let log0 : SentrySyncLogRec :=
    { status := .started, projectsSynced := 0, issuesSynced := 0, eventsSynced := 0,
      errorMessage := "", startedAt := t0, completedAt := none, durationSeconds := none }
  let log1 :=
    match outcome with
    | .ok (p, i, e) =>
      { log0 with status := .success, projectsSynced := p, issuesSynced := i,
                  eventsSynced := e }
    | .error m => { log0 with status := .failed, errorMessage := m }
  { log1 with completedAt := some t1, durationSeconds := some (t1 - t0) }

/-! ## SonarCloud pagination (apps/sonarcloud/client.py)

Three `while True` accumulate-pages loops over `(success, data)` responses.
`get_projects` has no page ceiling; `get_issues` and `get_security_hotspots`
break once the next page index would exceed 100 resp. 50.  Fuel makes each
loop a function; `none` means the loop is still running after `fuel`
iterations. -/

/-- One page of a SonarCloud search endpoint: the returned component keys
and the paging block's reported `total` (default 0 when absent). -/
structure SonarPage where
  components : List String
  total : Nat
deriving DecidableEq, Repr

/-- Model of `SonarCloudAPIClient.get_projects`: extend the accumulator with each
page and loop while the accumulated count is below the reported total.
A failed request returns `(False, [])`; there is NO page ceiling. -/
def sonarGetProjectsLoop (server : Nat → Option SonarPage) :
    List String → Nat → Nat → Option (Bool × List String)
  | _, _, 0 => none
  | acc, page, fuel + 1 =>
    match server page with
    | none => some (false, [])
    | some data =>
      let all := acc ++ data.components
      if data.total ≤ all.length then some (true, all)
      else sonarGetProjectsLoop server all (page + 1) fuel

/-- Model of `SonarCloudAPIClient.get_issues`: the same loop with the safety limit
`if page > 100: break` applied after the page counter is advanced. -/
def sonarGetIssuesLoop (server : Nat → Option SonarPage) :
    List String → Nat → Nat → Option (Bool × List String)
  | _, _, 0 => none
  | acc, page, fuel + 1 =>
    match server page with
    | none => some (false, [])
    | some data =>
      let all := acc ++ data.components
      if data.total ≤ all.length then some (true, all)
      else if 100 < page + 1 then some (true, all)
      else sonarGetIssuesLoop server all (page + 1) fuel

/-- Model of `SonarCloudAPIClient.get_security_hotspots`: ceiling 50. -/
def sonarGetHotspotsLoop (server : Nat → Option SonarPage) :
    List String → Nat → Nat → Option (Bool × List String)
  | _, _, 0 => none
  | acc, page, fuel + 1 =>
    match server page with
    | none => some (false, [])
    | some data =>
      let all := acc ++ data.components
      if data.total ≤ all.length then some (true, all)
      else if 50 < page + 1 then some (true, all)
      else sonarGetHotspotsLoop server all (page + 1) fuel

/-- A misbehaving server: every request succeeds, returns an empty page,
and reports a total of 1, so the returned count never reaches the total. -/
def badSonarServer : Nat → Option SonarPage := fun _ => some ⟨[], 1⟩

/-- The `get_projects` loop on `server`, started from an empty accumulator
at any page index, never exits however much fuel it is given. -/
def sonarGetProjectsDiverges (server : Nat → Option SonarPage) : Prop :=
  ∀ fuel page, sonarGetProjectsLoop server [] page fuel = none

/-! ## Annotation reference parser
(apps/sentry/services_jira_linking.py)

`_parse_jira_annotation` tries, in order, three `re.search` patterns on the
url — cloud-hosted `https?://([^.]+)\.atlassian\.net/browse/([A-Z][A-Z0-9]+-\d+)`,
self-hosted `https?://[^/]*jira[^/]*/browse/([A-Z][A-Z0-9]+-\d+)`, and the
bare key `^([A-Z][A-Z0-9]+-\d+)$` — then the bare-key pattern on the
display name.  Each quantified class here is followed by a character
outside the class, so greedy matching is deterministic and the searches
are implemented as leftmost-position scans with maximal-run matching. -/

/-- Model of `[A-Z]`. -/
def isUpperCh (c : Char) : Bool := 'A' ≤ c && c ≤ 'Z'

/-- Model of `[A-Z0-9]`. -/
def isKeyCh (c : Char) : Bool := isUpperCh c || isDigitCh c

/-- Model of `([A-Z][A-Z0-9]+-\d+)` anchored at the head: maximal runs, returning
the matched key and the remaining characters. -/
def matchTicketKey : List Char → Option (List Char × List Char)
  | c :: rest =>
    if isUpperCh c then
      let run := rest.takeWhile isKeyCh
      if run = [] then none
      else
        match rest.dropWhile isKeyCh with
        | '-' :: rest3 =>
          let ds := rest3.takeWhile isDigitCh
          if ds = [] then none
          else some (c :: run ++ '-' :: ds, rest3.dropWhile isDigitCh)
        | _ => none
    else none
  | [] => none

/-- Model of `https?://` anchored at the head (the optional `s` is forced: with an
`s` present the no-`s` alternative cannot match `://`). -/
def matchHttpScheme (l : List Char) : Option (List Char) :=
  match l with
  | 'h' :: 't' :: 't' :: 'p' :: rest =>
    let rest1 := match rest with
      | 's' :: r => r
      | r => r
    match rest1 with
    | ':' :: '/' :: '/' :: r2 => some r2
    | _ => none
  | _ => none

/-- Strip an exact literal from the head. -/
def stripLiteral : List Char → List Char → Option (List Char)
  | [], l => some l
  | _, [] => none
  | p :: ps, c :: cs => if p = c then stripLiteral ps cs else none

/-- Substring test (`pat` occurs contiguously in the list). -/
def hasSubstr (pat : List Char) : List Char → Bool
  | [] => pat.isEmpty
  | c :: cs => pat.isPrefixOf (c :: cs) || hasSubstr pat cs

/-- The cloud-hosted pattern anchored at the current position; returns
(captured domain, captured key).  `[^.]+` is the maximal dot-free run,
which must be followed by the literal `.atlassian.net/browse/`. -/
def matchCloudPatAt (l : List Char) : Option (List Char × List Char) :=
  match matchHttpScheme l with
  | none => none
  | some r =>
    let dom := r.takeWhile (· ≠ '.')
    if dom = [] then none
    else
      match stripLiteral ".atlassian.net/browse/".data (r.dropWhile (· ≠ '.')) with
      | none => none
      | some r3 => (matchTicketKey r3).map (fun kr => (dom, kr.1))

/-- Model of `re.search` for the cloud-hosted pattern: leftmost matching start. -/
def searchCloudPat : List Char → Option (List Char × List Char)
  | [] => none
  | c :: cs =>
    match matchCloudPatAt (c :: cs) with
    | some r => some r
    | none => searchCloudPat cs

/-- The self-hosted pattern anchored at the current position: the slash-free
host run must contain `jira` and be followed by `/browse/` and a key. -/
def matchSelfHostedPatAt (l : List Char) : Option (List Char) :=
  match matchHttpScheme l with
  | none => none
  | some r =>
    if hasSubstr "jira".data (r.takeWhile (· ≠ '/')) then
      match stripLiteral "/browse/".data (r.dropWhile (· ≠ '/')) with
      | none => none
      | some r3 => (matchTicketKey r3).map (·.1)
    else none

/-- Model of `re.search` for the self-hosted pattern: leftmost matching start. -/
def searchSelfHostedPat : List Char → Option (List Char)
  | [] => none
  | c :: cs =>
    match matchSelfHostedPatAt (c :: cs) with
    | some r => some r
    | none => searchSelfHostedPat cs

/-- Model of `re.search(r'(https?://[^/]+)', url)` anchored at the current position:
the captured text is the scheme together with the non-empty slash-free
host run. -/
def matchBaseUrlAt (l : List Char) : Option (List Char) :=
  match matchHttpScheme l with
  | none => none
  | some r =>
    let host := r.takeWhile (· ≠ '/')
    if host = [] then none
    else some (l.take (l.length - r.length) ++ host)

/-- Leftmost `https?://[^/]+` match, used to reconstruct a base url. -/
def searchBaseUrl : List Char → Option (List Char)
  | [] => none
  | c :: cs =>
    match matchBaseUrlAt (c :: cs) with
    | some r => some r
    | none => searchBaseUrl cs

/-- The dictionary built for one recognized reference. -/
structure JiraTicketInfo where
  ticketKey : String
  baseUrl : Option String
  fullUrl : String
  displayName : String
deriving DecidableEq, Repr

/-- Model of `SentryJiraLinkingService._parse_jira_annotation`: an empty url returns
no match at once; otherwise the three url patterns are tried in order
(first match wins) and finally the bare-key pattern on the display name.
The base url comes from the captured domain for the cloud pattern, from
the leftmost `https?://[^/]+` match otherwise, and is absent for a
display-name match; a falsy display name falls back to the ticket key. -/
def parseJiraAnnot (url displayName : String) : Option JiraTicketInfo :=
  if url = "" then none
  else
    let u := url.data
    match searchCloudPat u with
    | some (dom, key) =>
      let keyS := String.mk key
      some { ticketKey := keyS,
             baseUrl := some ("https://" ++ String.mk dom ++ ".atlassian.net"),
             fullUrl := url,
             displayName := if displayName = "" then keyS else displayName }
    | none =>
      match searchSelfHostedPat u with
      | some key =>
        let keyS := String.mk key
        some { ticketKey := keyS,
               baseUrl := (searchBaseUrl u).map String.mk,
               fullUrl := url,
               displayName := if displayName = "" then keyS else displayName }
      | none =>
        match matchTicketKey u with
        | some (key, []) =>
          let keyS := String.mk key
          some { ticketKey := keyS,
                 baseUrl := (searchBaseUrl u).map String.mk,
                 fullUrl := url,
                 displayName := if displayName = "" then keyS else displayName }
        | _ =>
          if displayName ≠ "" then
            match matchTicketKey displayName.data with
            | some (key, []) =>
              some { ticketKey := String.mk key, baseUrl := none, fullUrl := url,
                     displayName := displayName }
            | _ => none
          else none

/-- One Sentry annotation as consumed by the linking service: its url and
display name (non-dict entries are skipped upstream). -/
structure SentryAnnot where
  url : String
  displayName : String
deriving DecidableEq, Repr

/-- Model of `extract_jira_tickets_from_annotations`: parse every annotation,
keeping the recognized ones in order. -/
def extractJiraTicketsFromAnnots (annots : List SentryAnnot) : List JiraTicketInfo :=
  annots.filterMap (fun a => parseJiraAnnot a.url a.displayName)

/-! ## Sentry-JIRA cross links (apps/jira/models.py,
apps/sentry/services_jira_linking.py) -/

/-- A `sentry_jira_links` row (`SentryJiraLink`), unique on
(sentry_issue, jira_issue); issues are referred to by primary key. -/
structure SentryJiraLinkRow where
  sentryIssue : Nat
  jiraIssue : Nat
  linkType : String
  creationNotes : String
  syncSentryToJira : Bool
  syncJiraToSentry : Bool
deriving DecidableEq, Repr

/-- The row filter `sentry_issue=..., jira_issue=...` used by both the
existence check and the pair count. -/
def isPairLink (sid jid : Nat) (l : SentryJiraLinkRow) : Bool :=
  l.sentryIssue = sid ∧ l.jiraIssue = jid

/-- The per-ticket body of
`SentryJiraLinkingService.link_sentry_issue_to_jira_tickets` once the JIRA
issue is resolved: an existing (sentry, jira) link short-circuits ("already
exists") unless `force_update` is set; a link is created only when none
exists; an existing row is never modified — even under `force_update` the
source has no update branch.  Returns the table and whether a row was
created. -/
def linkTicket (db : List SentryJiraLinkRow) (sid jid : Nat) (forceUpdate : Bool)
    (notes : String) : List SentryJiraLinkRow × Bool :=
  let existing := db.any (isPairLink sid jid)
  if existing ∧ ¬forceUpdate then (db, false)
  else if ¬existing then
    (db ++ [{ sentryIssue := sid, jiraIssue := jid, linkType := "auto",
              creationNotes := notes, syncSentryToJira := true,
              syncJiraToSentry := true }],
     true)
  else (db, false)

/-- Number of link rows for one (sentry, jira) pair. -/
def countPairLinks (db : List SentryJiraLinkRow) (sid jid : Nat) : Nat :=
  (db.filter (isPairLink sid jid)).length

/-! ## Fuzzy title matching
(apps/sentry/services_jira_fuzzy_matching.py)

`SentryJiraFuzzyMatchingService` compares a cleaned Sentry title with
cleaned JIRA summaries through four scores and keeps candidates whose
maximal score clears the threshold (default `min_similarity = 0.7`). -/

/-- Length of the common prefix of two character lists (the inner `while`
of `_calculate_substring_similarity`, and the block length used by
`SequenceMatcher`). -/
def commonPrefixLen : List Char → List Char → Nat
  | a :: as, b :: bs => if a = b then commonPrefixLen as bs + 1 else 0
  | _, _ => 0

/-- Candidate scan for `SequenceMatcher.find_longest_match`: keep the
first (lowest `i`, then lowest `j`) strictly-longest matching block. -/
def pickBestAux (a b : List Char) : List (Nat × Nat) → Nat × Nat × Nat → Nat × Nat × Nat
  | [], best => best
  | (i, j) :: rest, best =>
    let k := commonPrefixLen (a.drop i) (b.drop j)
    pickBestAux a b rest (if best.2.2 < k then (i, j, k) else best)

/-- Model of `SequenceMatcher.find_longest_match` over whole sequences: of all
maximal matching blocks, the one starting earliest in `a`, then earliest
in `b`.  No junk is involved: the autojunk heuristic only kicks in for
sequences of length at least 200, far above cleaned titles. -/
def findLongestMatch (a b : List Char) : Nat × Nat × Nat :=
  pickBestAux a b
    ((List.range a.length).flatMap (fun i => (List.range b.length).map (fun j => (i, j))))
    (0, 0, 0)

/-- The common prefix is no longer than the left list. -/
theorem commonPrefixLen_le_left : ∀ a b : List Char, commonPrefixLen a b ≤ a.length := by
  intro a
  induction a with
  | nil => intro b; cases b <;> simp [commonPrefixLen]
  | cons x xs ih =>
    intro b
    cases b with
    | nil => simp [commonPrefixLen]
    | cons y ys =>
      simp only [commonPrefixLen, List.length_cons]
      split
      · have := ih ys; omega
      · omega

/-- The common prefix is no longer than the right list. -/
theorem commonPrefixLen_le_right : ∀ a b : List Char, commonPrefixLen a b ≤ b.length := by
  intro a
  induction a with
  | nil => intro b; cases b <;> simp [commonPrefixLen]
  | cons x xs ih =>
    intro b
    cases b with
    | nil => simp [commonPrefixLen]
    | cons y ys =>
      simp only [commonPrefixLen, List.length_cons]
      split
      · have := ih ys; omega
      · omega

/-- Soundness of a best-candidate triple: its length is zero or is the
common-prefix length at its positions. -/
def bestOk (a b : List Char) (t : Nat × Nat × Nat) : Prop :=
  t.2.2 = 0 ∨ t.2.2 = commonPrefixLen (a.drop t.1) (b.drop t.2.1)

theorem pickBestAux_ok (a b : List Char) :
    ∀ l t, bestOk a b t → bestOk a b (pickBestAux a b l t) := by
  intro l
  induction l with
  | nil => intro t h; exact h
  | cons p rest ih =>
    intro t h
    obtain ⟨i, j⟩ := p
    simp only [pickBestAux]
    apply ih
    split
    · right; rfl
    · exact h

theorem findLongestMatch_ok (a b : List Char) : bestOk a b (findLongestMatch a b) :=
  pickBestAux_ok a b _ _ (Or.inl rfl)

/-- A nonzero block fits inside both sequences. -/
theorem findLongestMatch_bounds (a b : List Char)
    (hk : (findLongestMatch a b).2.2 ≠ 0) :
    (findLongestMatch a b).1 + (findLongestMatch a b).2.2 ≤ a.length ∧
      (findLongestMatch a b).2.1 + (findLongestMatch a b).2.2 ≤ b.length := by
  rcases findLongestMatch_ok a b with h | h
  · exact absurd h hk
  · constructor
    · have h1 : (findLongestMatch a b).2.2 ≤ (a.drop (findLongestMatch a b).1).length :=
        h ▸ commonPrefixLen_le_left _ _
      have h2 := List.length_drop (findLongestMatch a b).1 a
      omega
    · have h1 : (findLongestMatch a b).2.2 ≤ (b.drop (findLongestMatch a b).2.1).length :=
        h ▸ commonPrefixLen_le_right _ _
      have h2 := List.length_drop (findLongestMatch a b).2.1 b
      omega

/-- The total matched size of `SequenceMatcher.get_matching_blocks`
(Ratcliff-Obershelp): the longest matching block plus, recursively, the
matched sizes to its left and to its right.  The recursion is driven by
fuel so that it stays structural (and so kernel-computable): every
recursive call strictly decreases `a.length + b.length`, so that sum
bounds the recursion depth and `ratcliffMatches` below never reaches the
fuel-exhaustion branch. -/
def ratcliffMatchesFuel : Nat → List Char → List Char → Nat
  | 0, _, _ => 0
  | fuel + 1, a, b =>
    let t := findLongestMatch a b
    if t.2.2 = 0 then 0
    else
      t.2.2 + ratcliffMatchesFuel fuel (a.take t.1) (b.take t.2.1)
        + ratcliffMatchesFuel fuel (a.drop (t.1 + t.2.2)) (b.drop (t.2.1 + t.2.2))

/-- The matched size on whole sequences. -/
def ratcliffMatches (a b : List Char) : Nat :=
  ratcliffMatchesFuel (a.length + b.length) a b

/-- The exact value of the Python float division `a / b` on natural
counts, as a rational.  `mkRat a b` equals `(a : ℚ) / (b : ℚ)`
(see `natDiv_eq_div`); the `mkRat` spelling keeps the scores
kernel-computable. -/
def natDiv (a b : Nat) : ℚ := mkRat a b

/-- Lemma: `natDiv` is cast division. -/
theorem natDiv_eq_div (a b : Nat) : natDiv a b = (a : ℚ) / (b : ℚ) := by
  rw [natDiv, Rat.mkRat_eq_div]
  push_cast
  ring

/-- Model of `SequenceMatcher.ratio()` as a rational: `2 * M / T`, and 1 when both
strings are empty (`_calculate_ratio`). -/
def sequenceSimilarity (t1 t2 : String) : ℚ :=
  if t1.length + t2.length = 0 then 1
  else natDiv (2 * ratcliffMatches t1.data t2.data) (t1.length + t2.length)

/-- Python `str.split()`: whitespace-separated tokens, no empties; the
accumulator carries the current word reversed. -/
def splitWordsAux : List Char → List Char → List String
  | [], acc => if acc = [] then [] else [String.mk acc.reverse]
  | c :: cs, acc =>
    if c.isWhitespace then
      if acc = [] then splitWordsAux cs []
      else String.mk acc.reverse :: splitWordsAux cs []
    else splitWordsAux cs (c :: acc)

/-- Python `str.split()` on a string. -/
def splitWords (s : String) : List String := splitWordsAux s.data []

/-- The stop-word set of `_extract_keywords`, verbatim. -/
def stopWords : List String :=
  ["the", "a", "an", "and", "or", "but", "in", "on", "at", "to", "for", "of", "with",
   "by", "is", "are", "was", "were", "be", "been", "have", "has", "had", "do", "does",
   "did", "will", "would", "could", "should", "can", "cannot", "cant", "this", "that",
   "these", "those", "error", "exception", "warning", "issue", "problem", "bug"]

/-- Model of `_extract_keywords`: words longer than 2 characters that are not stop
words (an empty title yields no words at all). -/
def extractKeywords (title : String) : List String :=
  (splitWords title).filter (fun w => 2 < w.length ∧ w ∉ stopWords)

/-- The word-set Jaccard overlap of `_calculate_similarity_scores`:
`|A ∩ B| / |A ∪ B|` on the word sets, 0 when either is empty. -/
def wordOverlap (t1 t2 : String) : ℚ :=
  let w1 := (splitWords t1).toFinset
  let w2 := (splitWords t2).toFinset
  if w1 = ∅ ∨ w2 = ∅ then 0
  else natDiv (w1 ∩ w2).card (w1 ∪ w2).card

/-- The keyword-set Jaccard overlap, on stop-word-filtered keywords. -/
def keywordOverlap (t1 t2 : String) : ℚ :=
  let k1 := (extractKeywords t1).toFinset
  let k2 := (extractKeywords t2).toFinset
  if k1 = ∅ ∨ k2 = ∅ then 0
  else natDiv (k1 ∩ k2).card (k1 ∪ k2).card

/-- The scan of `_calculate_substring_similarity`: the maximal common-run
length over every pair of start positions, i.e. the longest common
substring length. -/
def longestCommonSubstrLen (a b : List Char) : Nat :=
  (List.range a.length).foldl
    (fun m i =>
      (List.range b.length).foldl
        (fun m2 j => max m2 (commonPrefixLen (a.drop i) (b.drop j))) m)
    0

/-- Model of `_calculate_substring_similarity`: the longest common substring length
normalized by the shorter string's length; 0 when either is empty. -/
def substringSimilarity (t1 t2 : String) : ℚ :=
  if t1 = "" ∨ t2 = "" then 0
  else natDiv (longestCommonSubstrLen t1.data t2.data) (min t1.length t2.length)

/-- The four scores of `_calculate_similarity_scores`, in source order. -/
structure SimilarityScores where
  sequenceScore : ℚ
  wordScore : ℚ
  keywordScore : ℚ
  substringScore : ℚ
deriving DecidableEq, Repr

/-- Model of `_calculate_similarity_scores` on two (already cleaned) titles. -/
def calculateSimilarityScores (t1 t2 : String) : SimilarityScores :=
  { sequenceScore := sequenceSimilarity t1 t2,
    wordScore := wordOverlap t1 t2,
    keywordScore := keywordOverlap t1 t2,
    substringScore := substringSimilarity t1 t2 }

/-- Model of `max(similarity_scores.values())`: the candidate's final score. -/
def maxScore (s : SimilarityScores) : ℚ :=
  max (max s.sequenceScore s.wordScore) (max s.keywordScore s.substringScore)

/-- Model of `_determine_match_type`, with its strict thresholds (the source's
float literals 0.8, 0.7, 0.6 as exact rationals). -/
def determineMatchType (s : SimilarityScores) : String :=
  if mkRat 8 10 < s.keywordScore then "high_keyword_match"
  else if mkRat 8 10 < s.sequenceScore then "high_sequence_match"
  else if mkRat 7 10 < s.wordScore then "high_word_overlap"
  else if mkRat 6 10 < s.substringScore then "good_substring_match"
  else "moderate_match"

/-- Lowercasing of a character list (Python `str.lower`, ASCII range). -/
def lowerL (l : List Char) : List Char := l.map Char.toLower

/-- Drop a leading whitespace run (the `\s*` tail of the prefix patterns). -/
def dropSpaces (l : List Char) : List Char := l.dropWhile (fun c => c.isWhitespace)

/-- One `re.sub(r'^word:\s*', '', s)` step of `_clean_title`. -/
def stripWordColon (w : List Char) (l : List Char) : List Char :=
  match stripLiteral w l with
  | some r => dropSpaces r
  | none => l

/-- Model of `re.sub(r'^\[.*?\]\s*', '', s)`: a leading bracketed tag up to the
first closing bracket, plus trailing whitespace (`.` does not cross
newlines; titles are single-line). -/
def stripBracketTag (l : List Char) : List Char :=
  match l with
  | '[' :: rest =>
    if rest.any (· = ']') then dropSpaces ((rest.dropWhile (· ≠ ']')).drop 1)
    else '[' :: rest
  | l => l

/-- Model of `\w` (ASCII word character; the titles handled are ASCII). -/
def isWordCh (c : Char) : Bool := c.isAlphanum || c = '_'

/-- Model of `_clean_title`: lowercase, strip the severity prefixes and a bracketed
tag, map the remaining non-word non-space characters to spaces, and
collapse whitespace. -/
def cleanTitle (title : String) : String :=
  if title = "" then ""
  else
    let c0 := lowerL title.data
    let c1 := stripWordColon "error:".data c0
    let c2 := stripWordColon "exception:".data c1
    let c3 := stripWordColon "warning:".data c2
    let c4 := stripWordColon "bug:".data c3
    let c5 := stripBracketTag c4
    let c6 := c5.map (fun c => if isWordCh c || c.isWhitespace then c else ' ')
    String.intercalate " " (splitWords (String.mk c6))

/-- Model of `_get_potential_jira_matches` over an explicit summary table: issues
whose summary contains (case-insensitively) any of the first five
keywords, capped at 100 rows; no keywords yields the empty queryset. -/
def getPotentialJiraMatches (keywords : List String) (summaries : List String) :
    List String :=
  if keywords = [] then []
  else
    (summaries.filter (fun s =>
      (keywords.take 5).any (fun k => hasSubstr (lowerL k.data) (lowerL s.data)))).take 100

/-- One proposed match of `find_matching_jira_tickets`. -/
structure FuzzyMatchRec where
  jiraSummary : String
  similarityScore : ℚ
  scores : SimilarityScores
  matchType : String
deriving DecidableEq, Repr

/-- Stable descending insertion by `similarity_score`: the new element goes
before the first element whose score does not exceed it. -/
def insertByScore (m : FuzzyMatchRec) : List FuzzyMatchRec → List FuzzyMatchRec
  | [] => [m]
  | x :: xs =>
    if x.similarityScore ≤ m.similarityScore then m :: x :: xs
    else x :: insertByScore m xs

/-- Model of `matches.sort(key=similarity_score, reverse=True)`: a stable sort by
descending score — any stable sort computes the same list, insertion sort
here. -/
def sortByScoreDesc : List FuzzyMatchRec → List FuzzyMatchRec
  | [] => []
  | x :: xs => insertByScore x (sortByScoreDesc xs)

/-- Model of `find_matching_jira_tickets` over an explicit JIRA summary table:
titles shorter than `min_title_length = 10` are skipped; each pooled
candidate is scored on the cleaned titles and kept when its maximal score
reaches the threshold; matches are sorted by score, highest first. -/
def findMatchingJiraTickets (sentryTitle : String) (summaries : List String)
    (threshold : ℚ) : List FuzzyMatchRec :=
  if sentryTitle.length < 10 then []
  else
    let clean := cleanTitle sentryTitle
    let keywords := extractKeywords clean
    let pool := getPotentialJiraMatches keywords summaries
    let ms := pool.filterMap (fun summary =>
      let s := calculateSimilarityScores clean (cleanTitle summary)
      if threshold ≤ maxScore s then
        some { jiraSummary := summary, similarityScore := maxScore s, scores := s,
               matchType := determineMatchType s }
      else none)
    sortByScoreDesc ms

/-- The confidence bucket assigned by `scan_and_suggest_matches` to an
issue with a non-empty match list: `high` when some match's final score is
at least 0.8 (`high_confidence` nonempty), else `medium` — there is no
other bucket. -/
def suggestionConfidence (ms : List FuzzyMatchRec) : String :=
  if ms.any (fun m => mkRat 8 10 ≤ m.similarityScore) then "high" else "medium"

/-! ## Concrete fixtures used by witnesses and counterexamples -/

/-- A fixed current-time reading. -/
def tNow : PyDateTime := ⟨2024, 1, 1, 0, 0, 0, 0, some 0⟩

/-- An organization that has never synced. -/
def orgInit : JiraOrgState :=
  { connectionStatus := "unknown", connectionError := "", lastSync := none,
    lastConnectionTest := none }

/-- A placeholder ledger row (the input state's log field is unread:
`sync_all` creates a fresh ledger row). -/
def logInit : JiraSyncLogRec :=
  { status := .started, projectsSynced := 0, issuesSynced := 0, errorMessage := "",
    errorDetails := [], startedAt := 0, completedAt := none, durationSeconds := none }

/-- An empty initial durable state. -/
def stInit : JiraSyncState :=
  { org := orgInit, projects := [], issues := [], log := logInit }

/-- An environment whose connection probe fails with an auth error. -/
def envFail : JiraEnv :=
  { orgId := 1, probe := (false, "Connection failed: HTTP 401"),
    projectsResp := (true, []), issuesServer := fun _ _ => none, issuesFuel := 1,
    now := tNow, tMid := 5, t0 := 3, t1 := 9 }

/-- A well-formed issue payload with the given key and id. -/
def issuePayloadW (k i : String) : JiraIssuePayload :=
  { key := k, id := i, summary := "s " ++ k, descriptionText := none,
    issuetypeName := none, statusName := none, statusCategoryKey := none,
    priorityName := none, assignee := none, reporter := none, created := "",
    updated := "", resolutiondate := none, selfUrl := "", labels := [],
    componentNames := [], fixVersionNames := [] }

/-- A well-formed project payload for project `PROJ`. -/
def projPayloadW : JiraProjectPayload :=
  { key := "PROJ", id := "10001", name := "Project", description := "",
    projectTypeKey := "software", lead := none, projectCategoryName := none,
    selfUrl := "", avatarUrl48 := "" }

/-- A ten-issue page whose fifth issue is malformed (missing key), with the
server-reported total of 10. -/
def tenIssuePage : JiraSearchPage :=
  { issues :=
      [issuePayloadW "PROJ-1" "1", issuePayloadW "PROJ-2" "2", issuePayloadW "PROJ-3" "3",
       issuePayloadW "PROJ-4" "4", issuePayloadW "" "5", issuePayloadW "PROJ-6" "6",
       issuePayloadW "PROJ-7" "7", issuePayloadW "PROJ-8" "8", issuePayloadW "PROJ-9" "9",
       issuePayloadW "PROJ-10" "10"],
    total := 10 }

/-- An environment serving one project and the ten-issue page above. -/
def envC3 : JiraEnv :=
  { orgId := 1, probe := (true, "Connected successfully"),
    projectsResp := (true, [projPayloadW]),
    issuesServer := fun pk startAt =>
      if pk = "PROJ" ∧ startAt = 0 then some tenIssuePage else none,
    issuesFuel := 2, now := tNow, tMid := 5, t0 := 3, t1 := 9 }

end SRE

namespace SRE

/-! ## Claim theorems -/

/-- C10: the remote-timestamp parsers are total functions on strings that
never raise: for every input string (empty, null-like text, or malformed)
they return a datetime, and on any string whose preprocessed form fails
ISO-format parsing they return the supplied current UTC time, so an issue
synced with a malformed remote timestamp silently gets the sync time;
shown for `parse_jira_datetime` and `parse_datetime` in general and on
concrete malformed, empty and well-formed inputs. -/
theorem C10_datetime_parsers_total_fallback_now :
    (∀ s now, fromisoformatL (jiraPreprocess s) = none → parse_jira_datetime s now = now) ∧
    (∀ s now d, fromisoformatL (jiraPreprocess s) = some d → parse_jira_datetime s now = d) ∧
    (∀ s now, fromisoformatL (sentryPreprocess s) = none → parse_datetime s now = now) ∧
    (∀ s now d, fromisoformatL (sentryPreprocess s) = some d → parse_datetime s now = d) ∧
    parse_jira_datetime "" tNow = tNow ∧
    parse_jira_datetime "None" tNow = tNow ∧
    parse_jira_datetime "not a date" tNow = tNow ∧
    parse_jira_datetime "2023-12-25T10:30:00.000+0000" tNow =
      ⟨2023, 12, 25, 10, 30, 0, 0, some 0⟩ ∧
    parse_datetime "" tNow = tNow ∧
    parse_datetime "2024-01-02T03:04:05Z" tNow = ⟨2024, 1, 2, 3, 4, 5, 0, some 0⟩ := by
  refine ⟨?_, ?_, ?_, ?_, by decide, by decide, by decide, by decide, by decide, by decide⟩
  · intro s now h
    simp [parse_jira_datetime, h]
  · intro s now d h
    simp [parse_jira_datetime, h]
  · intro s now h
    simp [parse_datetime, h]
  · intro s now d h
    simp [parse_datetime, h]

/-- Witness for C10 at a concrete malformed and a concrete parsed input. -/
theorem C10_witness :
    parse_jira_datetime "garbage" tNow = tNow ∧
    parse_datetime "2024-01-02T03:04:05Z" tNow = ⟨2024, 1, 2, 3, 4, 5, 0, some 0⟩ :=
  ⟨C10_datetime_parsers_total_fallback_now.1 "garbage" tNow (by decide),
   C10_datetime_parsers_total_fallback_now.2.2.2.1 "2024-01-02T03:04:05Z" tNow
     ⟨2024, 1, 2, 3, 4, 5, 0, some 0⟩ (by decide)⟩

end SRE

namespace SRE

/-- C2: every invocation of a sync run that terminates — success, failure,
or exception alike — reaches the finally-path finalization exactly once:
afterwards the attempt's `completed_at` is the finalize-time reading and is
non-null, `completed_at` is at least `started_at` under a monotone clock,
and `duration` equals `completed_at - started_at`, computed only there.
Shown for the fully modelled JIRA engine on every environment and initial
state, and for the Sentry engine on every body outcome. -/
theorem C2_ledger_finalized_once (env : JiraEnv) (init st : JiraSyncState)
    (hrun : jiraSyncAll env init = some st) (hclock : env.t0 ≤ env.t1) :
    (st.log.completedAt = some env.t1 ∧ st.log.startedAt = env.t0 ∧
      (∀ c, st.log.completedAt = some c → st.log.startedAt ≤ c) ∧
      st.log.durationSeconds = some (env.t1 - env.t0)) ∧
    (∀ (outcome : Except String (Nat × Nat × Nat)) (t0 t1 : Int), t0 ≤ t1 →
      (sentrySyncAllLog outcome t0 t1).completedAt = some t1 ∧
      (sentrySyncAllLog outcome t0 t1).startedAt = t0 ∧
      (∀ c, (sentrySyncAllLog outcome t0 t1).completedAt = some c →
        (sentrySyncAllLog outcome t0 t1).startedAt ≤ c) ∧
      (sentrySyncAllLog outcome t0 t1).durationSeconds = some (t1 - t0)) := by
  constructor
  · simp only [jiraSyncAll] at hrun
    split at hrun
    · split at hrun
      · exact absurd hrun (by simp)
      · rw [Option.some.injEq] at hrun
        subst hrun
        refine ⟨rfl, rfl, ?_, rfl⟩
        intro c hc
        simp only [finalizeLog] at hc ⊢
        rw [Option.some.injEq] at hc
        omega
    · rw [Option.some.injEq] at hrun
      subst hrun
      refine ⟨rfl, rfl, ?_, rfl⟩
      intro c hc
      simp only [finalizeLog] at hc ⊢
      rw [Option.some.injEq] at hc
      omega
  · intro outcome t0 t1 ht
    rcases outcome with m | trip
    · refine ⟨rfl, rfl, fun c hc => ?_, rfl⟩
      simp only [sentrySyncAllLog, Option.some.injEq] at hc ⊢
      omega
    · obtain ⟨p, i, e⟩ := trip
      refine ⟨rfl, rfl, fun c hc => ?_, rfl⟩
      simp only [sentrySyncAllLog, Option.some.injEq] at hc ⊢
      omega

/-- Witness for C2: the probe-failure environment terminates, and the
finalized ledger fields are as the theorem states. -/
theorem C2_witness :
    jiraSyncAll envFail stInit =
      some { org := { connectionStatus := "failed",
                      connectionError := "JIRA connection failed: Connection failed: HTTP 401",
                      lastSync := none, lastConnectionTest := some 5 },
             projects := [], issues := [],
             log := { status := .failed, projectsSynced := 0, issuesSynced := 0,
                      errorMessage := "JIRA connection failed: Connection failed: HTTP 401",
                      errorDetails := [], startedAt := 3, completedAt := some 9,
                      durationSeconds := some 6 } } ∧
    envFail.t0 ≤ envFail.t1 ∧
    ({ org := { connectionStatus := "failed",
                connectionError := "JIRA connection failed: Connection failed: HTTP 401",
                lastSync := none, lastConnectionTest := some 5 },
       projects := [], issues := [],
       log := { status := .failed, projectsSynced := 0, issuesSynced := 0,
                errorMessage := "JIRA connection failed: Connection failed: HTTP 401",
                errorDetails := [], startedAt := 3, completedAt := some 9,
                durationSeconds := some 6 } } : JiraSyncState).log.completedAt =
      some envFail.t1 :=
  ⟨by decide, by decide,
   (C2_ledger_finalized_once envFail stInit _ (by decide) (by decide)).1.1⟩

/-- C4: when the connection probe fails, the whole sync aborts before any
entity sync: the organization's connection status is set to failed with
the probed failure reason recorded (prefixed as in the raised exception),
the attempt is marked failed and finalized, and the Project and Issue
tables are returned exactly as they were — no existing row is touched. -/
theorem C4_probe_failure_aborts (env : JiraEnv) (init : JiraSyncState)
    (hprobe : env.probe.1 = false) :
    jiraSyncAll env init =
      some { org := { init.org with
                      connectionStatus := "failed",
                      connectionError := "JIRA connection failed: " ++ env.probe.2,
                      lastConnectionTest := some env.tMid },
             projects := init.projects,
             issues := init.issues,
             log := { status := .failed, projectsSynced := 0, issuesSynced := 0,
                      errorMessage := "JIRA connection failed: " ++ env.probe.2,
                      errorDetails := [], startedAt := env.t0,
                      completedAt := some env.t1,
                      durationSeconds := some (env.t1 - env.t0) } } := by
  simp [jiraSyncAll, hprobe, finalizeLog]

/-- Witness for C4 at the concrete failing environment. -/
theorem C4_witness :
    jiraSyncAll envFail stInit =
      some { org := { stInit.org with
                      connectionStatus := "failed",
                      connectionError := "JIRA connection failed: " ++ envFail.probe.2,
                      lastConnectionTest := some envFail.tMid },
             projects := stInit.projects,
             issues := stInit.issues,
             log := { status := .failed, projectsSynced := 0, issuesSynced := 0,
                      errorMessage := "JIRA connection failed: " ++ envFail.probe.2,
                      errorDetails := [], startedAt := envFail.t0,
                      completedAt := some envFail.t1,
                      durationSeconds := some (envFail.t1 - envFail.t0) } } :=
  C4_probe_failure_aborts envFail stInit (by decide)

end SRE

namespace SRE

/-- C6: for every pair of issues, running the linking pass again on the
same pair touches nothing: if the table holds at most one row for the
pair, it still does after a pass (a row is created only when none exists,
so afterwards exactly one row exists); and a second pass — whatever its
force flag — returns the table unchanged with nothing created and no
error raised, so the existing link row is left untouched. -/
theorem C6_crosslink_unique_idempotent (db : List SentryJiraLinkRow) (sid jid : Nat)
    (f1 f2 : Bool) (n1 n2 : String) (huniq : countPairLinks db sid jid ≤ 1) :
    countPairLinks (linkTicket db sid jid f1 n1).1 sid jid ≤ 1 ∧
    countPairLinks (linkTicket db sid jid f1 n1).1 sid jid = 1 ∧
    linkTicket (linkTicket db sid jid f1 n1).1 sid jid f2 n2 =
      ((linkTicket db sid jid f1 n1).1, false) := by
  have hnew : isPairLink sid jid
      { sentryIssue := sid, jiraIssue := jid, linkType := "auto", creationNotes := n1,
        syncSentryToJira := true, syncJiraToSentry := true } = true := by
    simp [isPairLink]
  have key : countPairLinks (linkTicket db sid jid f1 n1).1 sid jid = 1 ∧
      ((linkTicket db sid jid f1 n1).1.any (isPairLink sid jid)) = true := by
    rcases hex : db.any (isPairLink sid jid) with _ | _
    · have hnil : db.filter (isPairLink sid jid) = [] := by
        rw [List.filter_eq_nil_iff]
        intro a ha
        have h := List.any_eq_false.mp hex a ha
        simpa using h
      constructor
      · simp [linkTicket, hex, countPairLinks, List.filter_append, hnil, hnew]
      · simp [linkTicket, hex, List.any_append, hnew]
    · have hone : countPairLinks db sid jid = 1 := by
        rw [List.any_eq_true] at hex
        obtain ⟨a, ha, hpa⟩ := hex
        have hmem : a ∈ db.filter (isPairLink sid jid) := List.mem_filter.mpr ⟨ha, hpa⟩
        have hlen := List.length_pos.mpr (List.ne_nil_of_mem hmem)
        rw [countPairLinks] at huniq ⊢
        omega
      have hres : (linkTicket db sid jid f1 n1).1 = db := by
        rcases f1 with _ | _ <;> simp [linkTicket, hex]
      rw [hres]
      exact ⟨hone, hex⟩
  refine ⟨by omega, key.1, ?_⟩
  obtain ⟨hk1, hk2⟩ := key
  generalize hd : (linkTicket db sid jid f1 n1).1 = d1 at hk2 ⊢
  rcases f2 with _ | _ <;>
  · simp only [linkTicket, hk2]
    simp

/-- Witness for C6 on an initially empty link table. -/
theorem C6_witness :
    countPairLinks (linkTicket [] 1 2 false "n1").1 1 2 ≤ 1 ∧
    countPairLinks (linkTicket [] 1 2 false "n1").1 1 2 = 1 ∧
    linkTicket (linkTicket [] 1 2 false "n1").1 1 2 false "n2" =
      ((linkTicket [] 1 2 false "n1").1, false) :=
  C6_crosslink_unique_idempotent [] 1 2 false false "n1" "n2" (by decide)

end SRE

namespace SRE

/-- C5 counterexample: an annotation whose text (display name) is the bare
key `PROJ-123` but whose url is empty yields NO match — `_parse_jira_annotation`
returns `None` as soon as the url is falsy, before any pattern is tried,
so the claimed bare-key extraction fails on this annotation. -/
theorem C5_counterexample :
    parseJiraAnnot "" "PROJ-123" = none ∧
    extractJiraTicketsFromAnnots [{ url := "", displayName := "PROJ-123" }] = [] := by
  constructor <;> decide

/-- C5 amended: the parser, applied to an annotation's url and display
name against the ordered pattern list, satisfies: the cloud-hosted url
`https://acme.atlassian.net/browse/PROJ-123` yields key `PROJ-123`; a bare
key yields the same key when it stands in the url field, and a bare-key
display name is used only when the url is non-empty yet matches no url
pattern; an annotation with an empty url never matches, whatever its
display name; an unrelated url with a non-key display name yields no
match; and the first matching pattern wins — whenever the cloud-hosted
pattern matches the url, its captured key and reconstructed base url are
the result. -/
theorem C5_reference_parsing_amended :
    (parseJiraAnnot "https://acme.atlassian.net/browse/PROJ-123" "" =
      some { ticketKey := "PROJ-123", baseUrl := some "https://acme.atlassian.net",
             fullUrl := "https://acme.atlassian.net/browse/PROJ-123",
             displayName := "PROJ-123" }) ∧
    (parseJiraAnnot "PROJ-123" "" =
      some { ticketKey := "PROJ-123", baseUrl := none, fullUrl := "PROJ-123",
             displayName := "PROJ-123" }) ∧
    (parseJiraAnnot "https://other.host/x" "PROJ-123" =
      some { ticketKey := "PROJ-123", baseUrl := none, fullUrl := "https://other.host/x",
             displayName := "PROJ-123" }) ∧
    (∀ d, parseJiraAnnot "" d = none) ∧
    (parseJiraAnnot "https://github.com/acme/repo/issues/42" "" = none) ∧
    (parseJiraAnnot "https://jira.acme.com/browse/OPS-7" "" =
      some { ticketKey := "OPS-7", baseUrl := some "https://jira.acme.com",
             fullUrl := "https://jira.acme.com/browse/OPS-7", displayName := "OPS-7" }) ∧
    (∀ url d dom key, url ≠ "" → searchCloudPat url.data = some (dom, key) →
      parseJiraAnnot url d =
        some { ticketKey := String.mk key,
               baseUrl := some ("https://" ++ String.mk dom ++ ".atlassian.net"),
               fullUrl := url,
               displayName := if d = "" then String.mk key else d }) := by
  refine ⟨by decide, by decide, by decide, ?_, by decide, by decide, ?_⟩
  · intro d
    simp [parseJiraAnnot]
  · intro url d dom key hne hmatch
    simp only [parseJiraAnnot, if_neg hne, hmatch]

/-- Witness for C5: the first-pattern-wins clause applied at the concrete
cloud-hosted url. -/
theorem C5_witness :
    parseJiraAnnot "https://acme.atlassian.net/browse/AB-1" "x" =
      some { ticketKey := String.mk ['A', 'B', '-', '1'],
             baseUrl := some ("https://" ++ String.mk ['a', 'c', 'm', 'e'] ++ ".atlassian.net"),
             fullUrl := "https://acme.atlassian.net/browse/AB-1",
             displayName := if "x" = "" then String.mk ['A', 'B', '-', '1'] else "x" } :=
  C5_reference_parsing_amended.2.2.2.2.2.2 "https://acme.atlassian.net/browse/AB-1" "x"
    ['a', 'c', 'm', 'e'] ['A', 'B', '-', '1'] (by decide) (by decide)

end SRE

namespace SRE

/-- Updating rows in place does not change the key column, provided the
update preserves keys. -/
theorem map_key_update {α K : Type} [DecidableEq K] (key : α → K) (k : K)
    (upd : α → α) (db : List α) (hupd : ∀ r, key (upd r) = key r) :
    (db.map (fun r => if key r = k then upd r else r)).map key = db.map key := by
  induction db with
  | nil => rfl
  | cons x xs ih =>
    simp only [List.map_cons, ih]
    by_cases hx : key x = k
    · simp [hx, hupd]
    · simp [hx]

/-- The key column after `update_or_create`: unchanged when the key was
present, extended by exactly that key otherwise. -/
theorem keys_updateOrCreate {α K : Type} [DecidableEq K] (key : α → K) (k : K)
    (upd : α → α) (new : α) (db : List α) (hupd : ∀ r, key (upd r) = key r)
    (hnew : key new = k) :
    (updateOrCreate key k upd new db).map key =
      if k ∈ db.map key then db.map key else db.map key ++ [k] := by
  rw [updateOrCreate]
  by_cases hmem : k ∈ db.map key
  · have hany : (db.any fun r => key r = k) = true := by
      rw [List.any_eq_true]
      obtain ⟨r, hr, hrk⟩ := List.mem_map.mp hmem
      exact ⟨r, hr, by simp [hrk]⟩
    rw [hany]
    simp only [if_true, if_pos hmem]
    exact map_key_update key k upd db hupd
  · have hany : (db.any fun r => key r = k) = false := by
      rw [List.any_eq_false]
      intro r hr
      simp only [decide_eq_true_eq]
      intro hrk
      exact hmem (List.mem_map.mpr ⟨r, hr, hrk⟩)
    rw [hany]
    simp [hmem, hnew]

/-- Lemma: `update_or_create` preserves key uniqueness. -/
theorem nodup_updateOrCreate {α K : Type} [DecidableEq K] (key : α → K) (k : K)
    (upd : α → α) (new : α) (db : List α) (hupd : ∀ r, key (upd r) = key r)
    (hnew : key new = k) (hnd : (db.map key).Nodup) :
    ((updateOrCreate key k upd new db).map key).Nodup := by
  rw [keys_updateOrCreate key k upd new db hupd hnew]
  by_cases hmem : k ∈ db.map key
  · simpa [hmem] using hnd
  · simp [hmem, List.Nodup.append, hnd]

/-- A key present before `update_or_create` is present afterwards, and the
looked-up key is always present afterwards. -/
theorem mem_keys_updateOrCreate {α K : Type} [DecidableEq K] (key : α → K) (k : K)
    (upd : α → α) (new : α) (db : List α) (hupd : ∀ r, key (upd r) = key r)
    (hnew : key new = k) :
    (∀ x ∈ db.map key, x ∈ (updateOrCreate key k upd new db).map key) ∧
      k ∈ (updateOrCreate key k upd new db).map key := by
  rw [keys_updateOrCreate key k upd new db hupd hnew]
  by_cases hmem : k ∈ db.map key
  · rw [if_pos hmem]
    exact ⟨fun x hx => hx, hmem⟩
  · rw [if_neg hmem]
    exact ⟨fun x hx => List.mem_append_left _ hx, List.mem_append_right _ (by simp)⟩

end SRE

namespace SRE

/-- Lemma: `upsertProject` on a present key leaves the key column unchanged. -/
theorem upsertProject_keys_of_mem (org : Nat) (p : JiraProjectPayload)
    (db : List JiraProjectRow) (hmem : (org, p.key) ∈ db.map projectKeyOf) :
    (upsertProject org p db).map projectKeyOf = db.map projectKeyOf := by
  have h := keys_updateOrCreate projectKeyOf (org, p.key)
    (fun r => { r with defaults := jiraProjectDefaultsOf p })
    { org := org, jiraKey := p.key, defaults := jiraProjectDefaultsOf p,
      syncEnabled := true, syncIssues := true, maxIssuesToSync := 1000,
      totalIssues := 0, openIssues := 0, inProgressIssues := 0, doneIssues := 0,
      lastIssueSync := none } db (fun _ => rfl) rfl
  rw [if_pos hmem] at h
  exact h

/-- Lemma: `upsertProject` preserves present keys and makes its own present. -/
theorem upsertProject_keys_mem (org : Nat) (p : JiraProjectPayload)
    (db : List JiraProjectRow) :
    (∀ x ∈ db.map projectKeyOf, x ∈ (upsertProject org p db).map projectKeyOf) ∧
      (org, p.key) ∈ (upsertProject org p db).map projectKeyOf :=
  mem_keys_updateOrCreate projectKeyOf (org, p.key)
    (fun r => { r with defaults := jiraProjectDefaultsOf p })
    { org := org, jiraKey := p.key, defaults := jiraProjectDefaultsOf p,
      syncEnabled := true, syncIssues := true, maxIssuesToSync := 1000,
      totalIssues := 0, openIssues := 0, inProgressIssues := 0, doneIssues := 0,
      lastIssueSync := none } db (fun _ => rfl) rfl

/-- Lemma: `upsertProject` preserves key uniqueness. -/
theorem upsertProject_keys_nodup (org : Nat) (p : JiraProjectPayload)
    (db : List JiraProjectRow) (hnd : (db.map projectKeyOf).Nodup) :
    ((upsertProject org p db).map projectKeyOf).Nodup :=
  nodup_updateOrCreate projectKeyOf (org, p.key)
    (fun r => { r with defaults := jiraProjectDefaultsOf p })
    { org := org, jiraKey := p.key, defaults := jiraProjectDefaultsOf p,
      syncEnabled := true, syncIssues := true, maxIssuesToSync := 1000,
      totalIssues := 0, openIssues := 0, inProgressIssues := 0, doneIssues := 0,
      lastIssueSync := none } db (fun _ => rfl) rfl hnd

/-- Lemma: `upsertIssue` on a present key leaves the key column unchanged. -/
theorem upsertIssue_keys_of_mem (org : Nat) (pk : String) (now : PyDateTime)
    (p : JiraIssuePayload) (db : List JiraIssueRow)
    (hmem : (org, pk, p.key) ∈ db.map issueKeyOf) :
    (upsertIssue org pk now p db).map issueKeyOf = db.map issueKeyOf := by
  have h := keys_updateOrCreate issueKeyOf (org, pk, p.key)
    (fun r => { r with defaults := jiraIssueDefaultsOf p now })
    { org := org, projectKey := pk, jiraKey := p.key,
      defaults := jiraIssueDefaultsOf p now } db (fun _ => rfl) rfl
  rw [if_pos hmem] at h
  exact h

/-- Lemma: `upsertIssue` preserves present keys and makes its own present. -/
theorem upsertIssue_keys_mem (org : Nat) (pk : String) (now : PyDateTime)
    (p : JiraIssuePayload) (db : List JiraIssueRow) :
    (∀ x ∈ db.map issueKeyOf, x ∈ (upsertIssue org pk now p db).map issueKeyOf) ∧
      (org, pk, p.key) ∈ (upsertIssue org pk now p db).map issueKeyOf :=
  mem_keys_updateOrCreate issueKeyOf (org, pk, p.key)
    (fun r => { r with defaults := jiraIssueDefaultsOf p now })
    { org := org, projectKey := pk, jiraKey := p.key,
      defaults := jiraIssueDefaultsOf p now } db (fun _ => rfl) rfl

/-- Lemma: `upsertIssue` preserves key uniqueness. -/
theorem upsertIssue_keys_nodup (org : Nat) (pk : String) (now : PyDateTime)
    (p : JiraIssuePayload) (db : List JiraIssueRow)
    (hnd : (db.map issueKeyOf).Nodup) :
    ((upsertIssue org pk now p db).map issueKeyOf).Nodup :=
  nodup_updateOrCreate issueKeyOf (org, pk, p.key)
    (fun r => { r with defaults := jiraIssueDefaultsOf p now })
    { org := org, projectKey := pk, jiraKey := p.key,
      defaults := jiraIssueDefaultsOf p now } db (fun _ => rfl) rfl hnd

/-- Keys already present survive a project sync pass. -/
theorem jiraSyncProjects_keys_mono (org : Nat) :
    ∀ (ps : List JiraProjectPayload) (db : List JiraProjectRow) (x : Nat × String),
      x ∈ db.map projectKeyOf → x ∈ (jiraSyncProjects org db ps).1.map projectKeyOf := by
  intro ps
  induction ps with
  | nil => intro db x hx; exact hx
  | cons p ps ih =>
    intro db x hx
    simp only [jiraSyncProjects]
    by_cases hbad : p.key = "" ∨ p.id = ""
    · rw [if_pos hbad]
      exact ih db x hx
    · rw [if_neg hbad]
      exact ih _ x ((upsertProject_keys_mem org p db).1 x hx)

/-- Every valid payload's key is present after a project sync pass. -/
theorem jiraSyncProjects_keys_covers (org : Nat) :
    ∀ (ps : List JiraProjectPayload) (db : List JiraProjectRow) (p : JiraProjectPayload),
      p ∈ ps → ¬(p.key = "" ∨ p.id = "") →
      (org, p.key) ∈ (jiraSyncProjects org db ps).1.map projectKeyOf := by
  intro ps
  induction ps with
  | nil => intro db p hp; exact absurd hp (List.not_mem_nil p)
  | cons q ps ih =>
    intro db p hp hval
    rcases List.mem_cons.mp hp with heq | htail
    · subst heq
      simp only [jiraSyncProjects]
      rw [if_neg hval]
      exact jiraSyncProjects_keys_mono org ps _ _ (upsertProject_keys_mem org p db).2
    · simp only [jiraSyncProjects]
      by_cases hbad : q.key = "" ∨ q.id = ""
      · rw [if_pos hbad]
        exact ih db p htail hval
      · rw [if_neg hbad]
        exact ih _ p htail hval

/-- A project sync pass whose valid keys are all already present leaves
the key column unchanged. -/
theorem jiraSyncProjects_keys_stable (org : Nat) :
    ∀ (ps : List JiraProjectPayload) (db : List JiraProjectRow),
      (∀ p ∈ ps, ¬(p.key = "" ∨ p.id = "") → (org, p.key) ∈ db.map projectKeyOf) →
      (jiraSyncProjects org db ps).1.map projectKeyOf = db.map projectKeyOf := by
  intro ps
  induction ps with
  | nil => intro db _; rfl
  | cons p ps ih =>
    intro db hcov
    simp only [jiraSyncProjects]
    by_cases hbad : p.key = "" ∨ p.id = ""
    · rw [if_pos hbad]
      exact ih db (fun q hq => hcov q (List.mem_cons_of_mem p hq))
    · rw [if_neg hbad]
      have hmem := hcov p (List.mem_cons_self p ps) hbad
      have hkeys : (upsertProject org p db).map projectKeyOf = db.map projectKeyOf :=
        upsertProject_keys_of_mem org p db hmem
      rw [ih (upsertProject org p db) (fun q hq hqv => by
        rw [hkeys]; exact hcov q (List.mem_cons_of_mem p hq) hqv)]
      exact hkeys

/-- A project sync pass preserves key uniqueness. -/
theorem jiraSyncProjects_keys_nodup (org : Nat) :
    ∀ (ps : List JiraProjectPayload) (db : List JiraProjectRow),
      (db.map projectKeyOf).Nodup → ((jiraSyncProjects org db ps).1.map projectKeyOf).Nodup := by
  intro ps
  induction ps with
  | nil => intro db h; exact h
  | cons p ps ih =>
    intro db h
    simp only [jiraSyncProjects]
    by_cases hbad : p.key = "" ∨ p.id = ""
    · rw [if_pos hbad]
      exact ih db h
    · rw [if_neg hbad]
      exact ih _ (upsertProject_keys_nodup org p db h)

/-- Keys already present survive an issue page pass. -/
theorem processIssuesPage_keys_mono (org : Nat) (pk : String) (now : PyDateTime) :
    ∀ (ps : List JiraIssuePayload) (db : List JiraIssueRow) (x : Nat × String × String),
      x ∈ db.map issueKeyOf → x ∈ (processIssuesPage org pk now db ps).1.map issueKeyOf := by
  intro ps
  induction ps with
  | nil => intro db x hx; exact hx
  | cons p ps ih =>
    intro db x hx
    simp only [processIssuesPage, syncSingleIssue]
    by_cases hbad : p.key = "" ∨ p.id = ""
    · rw [if_pos hbad]
      exact ih db x hx
    · rw [if_neg hbad]
      exact ih _ x ((upsertIssue_keys_mem org pk now p db).1 x hx)

/-- Every valid payload's key is present after an issue page pass. -/
theorem processIssuesPage_keys_covers (org : Nat) (pk : String) (now : PyDateTime) :
    ∀ (ps : List JiraIssuePayload) (db : List JiraIssueRow) (p : JiraIssuePayload),
      p ∈ ps → ¬(p.key = "" ∨ p.id = "") →
      (org, pk, p.key) ∈ (processIssuesPage org pk now db ps).1.map issueKeyOf := by
  intro ps
  induction ps with
  | nil => intro db p hp; exact absurd hp (List.not_mem_nil p)
  | cons q ps ih =>
    intro db p hp hval
    rcases List.mem_cons.mp hp with heq | htail
    · subst heq
      simp only [processIssuesPage, syncSingleIssue]
      rw [if_neg hval]
      exact processIssuesPage_keys_mono org pk now ps _ _
        (upsertIssue_keys_mem org pk now p db).2
    · simp only [processIssuesPage, syncSingleIssue]
      by_cases hbad : q.key = "" ∨ q.id = ""
      · rw [if_pos hbad]
        exact ih db p htail hval
      · rw [if_neg hbad]
        exact ih _ p htail hval

/-- An issue page pass whose valid keys are all already present leaves the
key column unchanged. -/
theorem processIssuesPage_keys_stable (org : Nat) (pk : String) (now : PyDateTime) :
    ∀ (ps : List JiraIssuePayload) (db : List JiraIssueRow),
      (∀ p ∈ ps, ¬(p.key = "" ∨ p.id = "") → (org, pk, p.key) ∈ db.map issueKeyOf) →
      (processIssuesPage org pk now db ps).1.map issueKeyOf = db.map issueKeyOf := by
  intro ps
  induction ps with
  | nil => intro db _; rfl
  | cons p ps ih =>
    intro db hcov
    simp only [processIssuesPage, syncSingleIssue]
    by_cases hbad : p.key = "" ∨ p.id = ""
    · rw [if_pos hbad]
      exact ih db (fun q hq => hcov q (List.mem_cons_of_mem p hq))
    · rw [if_neg hbad]
      have hmem := hcov p (List.mem_cons_self p ps) hbad
      have hkeys : (upsertIssue org pk now p db).map issueKeyOf = db.map issueKeyOf :=
        upsertIssue_keys_of_mem org pk now p db hmem
      rw [ih (upsertIssue org pk now p db) (fun q hq hqv => by
        rw [hkeys]; exact hcov q (List.mem_cons_of_mem p hq) hqv)]
      exact hkeys

/-- An issue page pass preserves key uniqueness. -/
theorem processIssuesPage_keys_nodup (org : Nat) (pk : String) (now : PyDateTime) :
    ∀ (ps : List JiraIssuePayload) (db : List JiraIssueRow),
      (db.map issueKeyOf).Nodup → ((processIssuesPage org pk now db ps).1.map issueKeyOf).Nodup := by
  intro ps
  induction ps with
  | nil => intro db h; exact h
  | cons p ps ih =>
    intro db h
    simp only [processIssuesPage, syncSingleIssue]
    by_cases hbad : p.key = "" ∨ p.id = ""
    · rw [if_pos hbad]
      exact ih db h
    · rw [if_neg hbad]
      exact ih _ (upsertIssue_keys_nodup org pk now p db h)

/-- C1: syncing identical remote data twice is idempotent at the row
level.  Issues are keyed by (project, external key) and projects by
(organization, external key); starting from any tables with unique keys,
the second pass leaves the key column — and hence the row count — exactly
as after the first pass, and key uniqueness (no duplicate rows) is
preserved, whatever current-time readings the two passes used. -/
theorem C1_upsert_idempotent (org : Nat) (pk : String)
    (dbP : List JiraProjectRow) (dbI : List JiraIssueRow)
    (ps : List JiraProjectPayload) (isPs : List JiraIssuePayload)
    (n1 n2 : PyDateTime)
    (hP : (dbP.map projectKeyOf).Nodup) (hI : (dbI.map issueKeyOf).Nodup) :
    ((jiraSyncProjects org (jiraSyncProjects org dbP ps).1 ps).1.map projectKeyOf =
        (jiraSyncProjects org dbP ps).1.map projectKeyOf ∧
      (jiraSyncProjects org (jiraSyncProjects org dbP ps).1 ps).1.length =
        (jiraSyncProjects org dbP ps).1.length ∧
      ((jiraSyncProjects org dbP ps).1.map projectKeyOf).Nodup ∧
      ((jiraSyncProjects org (jiraSyncProjects org dbP ps).1 ps).1.map projectKeyOf).Nodup) ∧
    ((processIssuesPage org pk n2 (processIssuesPage org pk n1 dbI isPs).1 isPs).1.map issueKeyOf =
        (processIssuesPage org pk n1 dbI isPs).1.map issueKeyOf ∧
      (processIssuesPage org pk n2 (processIssuesPage org pk n1 dbI isPs).1 isPs).1.length =
        (processIssuesPage org pk n1 dbI isPs).1.length ∧
      ((processIssuesPage org pk n1 dbI isPs).1.map issueKeyOf).Nodup ∧
      ((processIssuesPage org pk n2 (processIssuesPage org pk n1 dbI isPs).1 isPs).1.map
        issueKeyOf).Nodup) := by
  have hPstable : (jiraSyncProjects org (jiraSyncProjects org dbP ps).1 ps).1.map projectKeyOf =
      (jiraSyncProjects org dbP ps).1.map projectKeyOf :=
    jiraSyncProjects_keys_stable org ps (jiraSyncProjects org dbP ps).1
      (fun p hp hv => jiraSyncProjects_keys_covers org ps dbP p hp hv)
  have hIstable : (processIssuesPage org pk n2
        (processIssuesPage org pk n1 dbI isPs).1 isPs).1.map issueKeyOf =
      (processIssuesPage org pk n1 dbI isPs).1.map issueKeyOf :=
    processIssuesPage_keys_stable org pk n2 isPs (processIssuesPage org pk n1 dbI isPs).1
      (fun p hp hv => processIssuesPage_keys_covers org pk n1 isPs dbI p hp hv)
  have hPlen := congrArg List.length hPstable
  have hIlen := congrArg List.length hIstable
  simp only [List.length_map] at hPlen hIlen
  have hPnd := jiraSyncProjects_keys_nodup org ps dbP hP
  have hInd := processIssuesPage_keys_nodup org pk n1 isPs dbI hI
  refine ⟨⟨hPstable, hPlen, hPnd, ?_⟩, hIstable, hIlen, hInd, ?_⟩
  · rw [hPstable]; exact hPnd
  · rw [hIstable]; exact hInd

/-- Witness for C1 on one project and one issue payload over empty
tables. -/
theorem C1_witness :
    (([] : List JiraProjectRow).map projectKeyOf).Nodup ∧
    (([] : List JiraIssueRow).map issueKeyOf).Nodup ∧
    ((jiraSyncProjects 1 (jiraSyncProjects 1 [] [projPayloadW]).1 [projPayloadW]).1.length =
      (jiraSyncProjects 1 [] [projPayloadW]).1.length) :=
  ⟨by decide, by decide,
   (C1_upsert_idempotent 1 "PROJ" [] [] [projPayloadW] [issuePayloadW "PROJ-1" "1"] tNow tNow
      (by decide) (by decide)).1.2.1⟩

end SRE

namespace SRE

/-- C3 counterexample: on a 10-issue page whose fifth issue has malformed
data, the run completes with status success and 9 upserted issue rows —
but the SyncAttempt carries NO error entry at all: `error_message` stays
empty and `error_details` empty, where the claim demands exactly 1 error
entry in the attempt's error list (the failure is only written to the
application log). -/
theorem C3_counterexample :
    (jiraSyncAll envC3 stInit).map (fun st =>
      (st.log.status, st.log.issuesSynced, st.log.errorMessage,
       st.log.errorDetails.length, st.issues.length)) =
      some (SyncStatus.success, 9, "", 0, 9) := by
  decide

/-- C3 amended: a failure to parse or upsert a single issue is caught and
skipped and never aborts the rest of the batch — the page function always
completes, counting exactly the well-formed issues — but the error is not
recorded in the SyncAttempt: on every completed probe-ok run the
attempt's `error_message` and `error_details` stay empty, and concretely
the 10-issue page with one malformed issue yields a success run with 9
upserts and 0 error entries. -/
theorem C3_partial_failure_isolation_amended :
    (∀ (org : Nat) (pk : String) (now : PyDateTime) (db : List JiraIssueRow)
        (ps : List JiraIssuePayload),
      (processIssuesPage org pk now db ps).2 =
        (ps.filter (fun p => ¬(p.key = "" ∨ p.id = ""))).length) ∧
    (∀ (env : JiraEnv) (init st : JiraSyncState), jiraSyncAll env init = some st →
      env.probe.1 = true → st.log.errorMessage = "" ∧ st.log.errorDetails = []) ∧
    (jiraSyncAll envC3 stInit).map (fun st => st.log.status) = some SyncStatus.success ∧
    (jiraSyncAll envC3 stInit).map (fun st => st.log.issuesSynced) = some 9 ∧
    (jiraSyncAll envC3 stInit).map (fun st => st.log.errorDetails) = some [] := by
  refine ⟨?_, ?_, by decide, by decide, by decide⟩
  · intro org pk now db ps
    induction ps generalizing db with
    | nil => rfl
    | cons p ps ih =>
      simp only [processIssuesPage, syncSingleIssue, List.filter_cons]
      by_cases hbad : p.key = "" ∨ p.id = ""
      · rw [if_pos hbad]
        simp only [ih]
        simp [hbad]
      · rw [if_neg hbad]
        simp only [ih]
        simp [hbad]
  · intro env init st hrun hprobe
    simp only [jiraSyncAll] at hrun
    rw [hprobe] at hrun
    simp only [if_true] at hrun
    split at hrun
    · exact absurd hrun (by simp)
    · rw [Option.some.injEq] at hrun
      subst hrun
      exact ⟨rfl, rfl⟩

/-- Witness for C3: the amended per-run clause applied to the concrete
ten-issue environment. -/
theorem C3_witness :
    jiraSyncAll envC3 stInit = some ((jiraSyncAll envC3 stInit).getD stInit) ∧
    envC3.probe.1 = true ∧
    (((jiraSyncAll envC3 stInit).getD stInit).log.errorMessage = "" ∧
      ((jiraSyncAll envC3 stInit).getD stInit).log.errorDetails = []) :=
  ⟨by decide, by decide,
   C3_partial_failure_isolation_amended.2.1 envC3 stInit ((jiraSyncAll envC3 stInit).getD stInit)
     (by decide) (by decide)⟩

end SRE

namespace SRE

/-- On the misbehaving server the projects loop never exits: the
accumulator stays empty while the reported total stays 1. -/
theorem sonarBadServer_stuck :
    ∀ (fuel page : Nat), sonarGetProjectsLoop badSonarServer [] page fuel = none := by
  intro fuel
  induction fuel with
  | zero => intro page; rfl
  | succ f ih =>
    intro page
    simp only [sonarGetProjectsLoop, badSonarServer, List.append_nil]
    exact ih (page + 1)

/-- C9 counterexample: the `get_projects` pagination loop of the
SonarCloud client has no page-count ceiling and does not terminate
against a misbehaving server that reports total 1 while returning empty
pages — however much fuel the loop is given, it is still running. -/
theorem C9_counterexample : sonarGetProjectsDiverges badSonarServer := by
  intro fuel page
  exact sonarBadServer_stuck fuel page

/-- The capped loops exit within their ceilings whatever the server does:
general fuel/page accounting for `get_issues` (ceiling 100). -/
theorem sonarGetIssuesLoop_terminates (server : Nat → Option SonarPage) :
    ∀ (fuel page : Nat) (acc : List String), 1 ≤ fuel → 101 ≤ fuel + page →
      (sonarGetIssuesLoop server acc page fuel).isSome := by
  intro fuel
  induction fuel with
  | zero => intro page acc h1; omega
  | succ f ih =>
    intro page acc h1 h2
    rw [sonarGetIssuesLoop]
    cases hs : server page with
    | none => simp
    | some data =>
      dsimp only
      by_cases htot : data.total ≤ (acc ++ data.components).length
      · rw [if_pos htot]
        simp
      · by_cases hcap : 100 < page + 1
        · rw [if_neg htot, if_pos hcap]
          simp
        · rw [if_neg htot, if_neg hcap]
          exact ih (page + 1) (acc ++ data.components) (by omega) (by omega)

/-- General fuel/page accounting for `get_security_hotspots` (ceiling 50). -/
theorem sonarGetHotspotsLoop_terminates (server : Nat → Option SonarPage) :
    ∀ (fuel page : Nat) (acc : List String), 1 ≤ fuel → 51 ≤ fuel + page →
      (sonarGetHotspotsLoop server acc page fuel).isSome := by
  intro fuel
  induction fuel with
  | zero => intro page acc h1; omega
  | succ f ih =>
    intro page acc h1 h2
    rw [sonarGetHotspotsLoop]
    cases hs : server page with
    | none => simp
    | some data =>
      dsimp only
      by_cases htot : data.total ≤ (acc ++ data.components).length
      · rw [if_pos htot]
        simp
      · by_cases hcap : 50 < page + 1
        · rw [if_neg htot, if_pos hcap]
          simp
        · rw [if_neg htot, if_neg hcap]
          exact ih (page + 1) (acc ++ data.components) (by omega) (by omega)

/-- The JIRA issue loop exits once `start_at` has advanced past every
total the server can report. -/
theorem jiraIssuesLoop_terminates (server : Nat → Option JiraSearchPage) (org : Nat)
    (pk : String) (maxIssues : Nat) (now : PyDateTime) :
    ∀ (f startAt synced : Nat) (db : List JiraIssueRow),
      (∀ s pg, server s = some pg → pg.total ≤ startAt + 100 * f + 100) →
      (jiraIssuesLoop server org pk maxIssues now db startAt synced (f + 1)).isSome := by
  intro f
  induction f with
  | zero =>
    intro startAt synced db hbound
    rw [jiraIssuesLoop]
    cases hs : server startAt with
    | none => simp
    | some page =>
      have hb := hbound startAt page hs
      by_cases hempty : page.issues = []
      · simp [hempty]
      · have hstop : page.total ≤ startAt + 100 ∨
            maxIssues ≤ synced + (processIssuesPage org pk now db page.issues).2 :=
          Or.inl (by omega)
        simp [hempty, hstop]
  | succ f ih =>
    intro startAt synced db hbound
    rw [jiraIssuesLoop]
    cases hs : server startAt with
    | none => simp
    | some page =>
      by_cases hempty : page.issues = []
      · simp [hempty]
      · by_cases hstop : page.total ≤ startAt + 100 ∨
            maxIssues ≤ synced + (processIssuesPage org pk now db page.issues).2
        · simp [hempty, hstop]
        · simp only [hempty, hstop, if_false]
          exact ih (startAt + 100) _ _ (fun s pg hpg => by
            have := hbound s pg hpg
            omega)

/-- C9 amended: not every list-endpoint loop is capped.  The SonarCloud
`get_issues` and `get_security_hotspots` loops carry hard page ceilings
(100 and 50) and exit from their entry points against every server within
that many pages; the JIRA issue loop has no page ceiling but terminates
whenever the server-reported totals are bounded (within total/100 + 1
pages, as it advances `start_at` by 100 until `start_at + 100 ≥ total`,
or stops on a failed or empty page); and the SonarCloud `get_projects`
loop, which has no ceiling at all, runs forever against a misbehaving
server that reports a positive total while returning empty pages. -/
theorem C9_pagination_amended (issueServer hotspotServer : Nat → Option SonarPage)
    (jiraServer : Nat → Option JiraSearchPage) (org : Nat) (pk : String)
    (maxIssues T : Nat) (now : PyDateTime) (db : List JiraIssueRow)
    (hT : ∀ s pg, jiraServer s = some pg → pg.total ≤ T) :
    (sonarGetIssuesLoop issueServer [] 1 100).isSome ∧
    (sonarGetHotspotsLoop hotspotServer [] 1 50).isSome ∧
    (jiraIssuesLoop jiraServer org pk maxIssues now db 0 0 (T / 100 + 1)).isSome ∧
    sonarGetProjectsDiverges badSonarServer := by
  refine ⟨sonarGetIssuesLoop_terminates issueServer 100 1 [] (by omega) (by omega),
          sonarGetHotspotsLoop_terminates hotspotServer 50 1 [] (by omega) (by omega),
          ?_, fun fuel page => sonarBadServer_stuck fuel page⟩
  exact jiraIssuesLoop_terminates jiraServer org pk maxIssues now (T / 100) 0 0 db
    (fun s pg hpg => by
      have h1 := hT s pg hpg
      have h2 : T < 100 * (T / 100) + 100 := by
        have hdm := Nat.div_add_mod T 100
        have hmod : T % 100 < 100 := Nat.mod_lt _ (by omega)
        omega
      omega)

/-- Witness for C9 with a concrete bounded-total JIRA server. -/
theorem C9_witness :
    (∀ s pg, (fun (_ : Nat) => some ({ issues := [], total := 250 } : JiraSearchPage)) s =
        some pg → pg.total ≤ 250) ∧
    (sonarGetIssuesLoop (fun _ => none) [] 1 100).isSome ∧
    (jiraIssuesLoop (fun _ => some { issues := [], total := 250 }) 1 "PROJ" 1000 tNow [] 0 0
      (250 / 100 + 1)).isSome :=
  ⟨fun s pg h => by
      rw [Option.some.injEq] at h
      rw [← h],
   (C9_pagination_amended (fun _ => none) (fun _ => none)
      (fun _ => some { issues := [], total := 250 }) 1 "PROJ" 1000 250 tNow []
      (fun s pg h => by rw [Option.some.injEq] at h; rw [← h])).1,
   (C9_pagination_amended (fun _ => none) (fun _ => none)
      (fun _ => some { issues := [], total := 250 }) 1 "PROJ" 1000 250 tNow []
      (fun s pg h => by rw [Option.some.injEq] at h; rw [← h])).2.2.1⟩

end SRE

namespace SRE

/-- Lemma: `natDiv` is never negative. -/
theorem natDiv_nonneg (a b : Nat) : 0 ≤ natDiv a b := by
  rw [natDiv_eq_div]
  positivity

/-- Lemma: `natDiv a b ≤ 1` whenever `a ≤ b`. -/
theorem natDiv_le_one (a b : Nat) (h : a ≤ b) : natDiv a b ≤ 1 := by
  rw [natDiv_eq_div]
  rcases Nat.eq_zero_or_pos b with hb | hb
  · subst hb
    have ha : a = 0 := by omega
    subst ha
    norm_num
  · rw [div_le_one (by exact_mod_cast hb)]
    exact_mod_cast h

/-- The Ratcliff-Obershelp matched size never exceeds either length,
whatever the fuel. -/
theorem ratcliffMatchesFuel_le :
    ∀ (fuel : Nat) (a b : List Char),
      ratcliffMatchesFuel fuel a b ≤ a.length ∧ ratcliffMatchesFuel fuel a b ≤ b.length := by
  intro fuel
  induction fuel with
  | zero => intro a b; simp [ratcliffMatchesFuel]
  | succ f ih =>
    intro a b
    simp only [ratcliffMatchesFuel]
    by_cases hk : (findLongestMatch a b).2.2 = 0
    · rw [if_pos hk]
      omega
    · rw [if_neg hk]
      have hb := findLongestMatch_bounds a b hk
      have h1 := ih (a.take (findLongestMatch a b).1) (b.take (findLongestMatch a b).2.1)
      have h2 := ih (a.drop ((findLongestMatch a b).1 + (findLongestMatch a b).2.2))
        (b.drop ((findLongestMatch a b).2.1 + (findLongestMatch a b).2.2))
      simp only [List.length_take, List.length_drop] at h1 h2
      omega

/-- The matched size on whole sequences is bounded by both lengths. -/
theorem ratcliffMatches_le (a b : List Char) :
    ratcliffMatches a b ≤ a.length ∧ ratcliffMatches a b ≤ b.length :=
  ratcliffMatchesFuel_le (a.length + b.length) a b

/-- Bounding a max-accumulating fold. -/
theorem foldl_max_le (g : Nat → Nat) (B : Nat) :
    ∀ (l : List Nat) (m : Nat), m ≤ B → (∀ j ∈ l, g j ≤ B) →
      (l.foldl (fun acc j => max acc (g j)) m) ≤ B := by
  intro l
  induction l with
  | nil => intro m hm _; exact hm
  | cons j js ih =>
    intro m hm hg
    simp only [List.foldl_cons]
    exact ih (max m (g j))
      (by
        have := hg j (List.mem_cons_self j js)
        omega)
      (fun x hx => hg x (List.mem_cons_of_mem j hx))

/-- The longest-common-substring scan is bounded by any bound on the
individual common runs. -/
theorem longestCommonSubstrLen_le_of (a b : List Char) (B : Nat)
    (hB : ∀ i j, commonPrefixLen (a.drop i) (b.drop j) ≤ B) :
    longestCommonSubstrLen a b ≤ B := by
  rw [longestCommonSubstrLen]
  have hgen : ∀ (is : List Nat) (m : Nat), m ≤ B →
      is.foldl (fun m i =>
        (List.range b.length).foldl
          (fun m2 j => max m2 (commonPrefixLen (a.drop i) (b.drop j))) m) m ≤ B := by
    intro is
    induction is with
    | nil => intro m hm; exact hm
    | cons i is ih =>
      intro m hm
      simp only [List.foldl_cons]
      exact ih _ (foldl_max_le (fun j => commonPrefixLen (a.drop i) (b.drop j)) B
        (List.range b.length) m hm (fun j _ => hB i j))
  exact hgen (List.range a.length) 0 (Nat.zero_le B)

/-- The longest-common-substring scan is bounded by both lengths. -/
theorem longestCommonSubstrLen_le (a b : List Char) :
    longestCommonSubstrLen a b ≤ a.length ∧ longestCommonSubstrLen a b ≤ b.length := by
  constructor
  · refine longestCommonSubstrLen_le_of a b a.length (fun i j => ?_)
    have h := commonPrefixLen_le_left (a.drop i) (b.drop j)
    rw [List.length_drop] at h
    omega
  · refine longestCommonSubstrLen_le_of a b b.length (fun i j => ?_)
    have h := commonPrefixLen_le_right (a.drop i) (b.drop j)
    rw [List.length_drop] at h
    omega

end SRE

namespace SRE

/-- A Jaccard quotient lies in the unit interval. -/
theorem jaccard_bounds (s t : Finset String) :
    0 ≤ natDiv (s ∩ t).card (s ∪ t).card ∧ natDiv (s ∩ t).card (s ∪ t).card ≤ 1 :=
  ⟨natDiv_nonneg _ _, natDiv_le_one _ _ (Finset.card_le_card Finset.inter_subset_union)⟩

/-- C7: for every pair of normalized titles, each of the four similarity
signals — sequence similarity, word-set Jaccard overlap, keyword-set
Jaccard overlap, and longest-common-substring length normalized by the
shorter length — lies in [0, 1]; the candidate's final score is the
maximum of the four: it coincides with one of them, bounds each of them,
and therefore lies in [0, 1] itself. -/
theorem C7_four_scores_unit_interval_max_of_four (t1 t2 : String) :
    (0 ≤ (calculateSimilarityScores t1 t2).sequenceScore ∧
      (calculateSimilarityScores t1 t2).sequenceScore ≤ 1) ∧
    (0 ≤ (calculateSimilarityScores t1 t2).wordScore ∧
      (calculateSimilarityScores t1 t2).wordScore ≤ 1) ∧
    (0 ≤ (calculateSimilarityScores t1 t2).keywordScore ∧
      (calculateSimilarityScores t1 t2).keywordScore ≤ 1) ∧
    (0 ≤ (calculateSimilarityScores t1 t2).substringScore ∧
      (calculateSimilarityScores t1 t2).substringScore ≤ 1) ∧
    (0 ≤ maxScore (calculateSimilarityScores t1 t2) ∧
      maxScore (calculateSimilarityScores t1 t2) ≤ 1) ∧
    ((calculateSimilarityScores t1 t2).sequenceScore ≤
        maxScore (calculateSimilarityScores t1 t2) ∧
      (calculateSimilarityScores t1 t2).wordScore ≤
        maxScore (calculateSimilarityScores t1 t2) ∧
      (calculateSimilarityScores t1 t2).keywordScore ≤
        maxScore (calculateSimilarityScores t1 t2) ∧
      (calculateSimilarityScores t1 t2).substringScore ≤
        maxScore (calculateSimilarityScores t1 t2)) ∧
    (maxScore (calculateSimilarityScores t1 t2) =
        (calculateSimilarityScores t1 t2).sequenceScore ∨
      maxScore (calculateSimilarityScores t1 t2) =
        (calculateSimilarityScores t1 t2).wordScore ∨
      maxScore (calculateSimilarityScores t1 t2) =
        (calculateSimilarityScores t1 t2).keywordScore ∨
      maxScore (calculateSimilarityScores t1 t2) =
        (calculateSimilarityScores t1 t2).substringScore) := by
  have hseq : 0 ≤ sequenceSimilarity t1 t2 ∧ sequenceSimilarity t1 t2 ≤ 1 := by
    rw [sequenceSimilarity]
    split
    · norm_num
    · refine ⟨natDiv_nonneg _ _, natDiv_le_one _ _ ?_⟩
      have h := ratcliffMatches_le t1.data t2.data
      have e1 : t1.data.length = t1.length := rfl
      have e2 : t2.data.length = t2.length := rfl
      omega
  have hword : 0 ≤ wordOverlap t1 t2 ∧ wordOverlap t1 t2 ≤ 1 := by
    simp only [wordOverlap]
    split
    · norm_num
    · exact jaccard_bounds _ _
  have hkw : 0 ≤ keywordOverlap t1 t2 ∧ keywordOverlap t1 t2 ≤ 1 := by
    simp only [keywordOverlap]
    split
    · norm_num
    · exact jaccard_bounds _ _
  have hsub : 0 ≤ substringSimilarity t1 t2 ∧ substringSimilarity t1 t2 ≤ 1 := by
    rw [substringSimilarity]
    split
    · norm_num
    · refine ⟨natDiv_nonneg _ _, natDiv_le_one _ _ ?_⟩
      have h := longestCommonSubstrLen_le t1.data t2.data
      have e1 : t1.data.length = t1.length := rfl
      have e2 : t2.data.length = t2.length := rfl
      omega
  have hle : (calculateSimilarityScores t1 t2).sequenceScore ≤
        maxScore (calculateSimilarityScores t1 t2) ∧
      (calculateSimilarityScores t1 t2).wordScore ≤
        maxScore (calculateSimilarityScores t1 t2) ∧
      (calculateSimilarityScores t1 t2).keywordScore ≤
        maxScore (calculateSimilarityScores t1 t2) ∧
      (calculateSimilarityScores t1 t2).substringScore ≤
        maxScore (calculateSimilarityScores t1 t2) := by
    rw [maxScore]
    exact ⟨le_trans (le_max_left _ _) (le_max_left _ _),
           le_trans (le_max_right _ _) (le_max_left _ _),
           le_trans (le_max_left _ _) (le_max_right _ _),
           le_trans (le_max_right _ _) (le_max_right _ _)⟩
  have hchoice : maxScore (calculateSimilarityScores t1 t2) =
        (calculateSimilarityScores t1 t2).sequenceScore ∨
      maxScore (calculateSimilarityScores t1 t2) =
        (calculateSimilarityScores t1 t2).wordScore ∨
      maxScore (calculateSimilarityScores t1 t2) =
        (calculateSimilarityScores t1 t2).keywordScore ∨
      maxScore (calculateSimilarityScores t1 t2) =
        (calculateSimilarityScores t1 t2).substringScore := by
    rw [maxScore]
    rcases max_choice (max (calculateSimilarityScores t1 t2).sequenceScore
        (calculateSimilarityScores t1 t2).wordScore)
      (max (calculateSimilarityScores t1 t2).keywordScore
        (calculateSimilarityScores t1 t2).substringScore) with h1 | h1 <;> rw [h1]
    · rcases max_choice (calculateSimilarityScores t1 t2).sequenceScore
          (calculateSimilarityScores t1 t2).wordScore with h2 | h2 <;> rw [h2]
      · exact Or.inl rfl
      · exact Or.inr (Or.inl rfl)
    · rcases max_choice (calculateSimilarityScores t1 t2).keywordScore
          (calculateSimilarityScores t1 t2).substringScore with h2 | h2 <;> rw [h2]
      · exact Or.inr (Or.inr (Or.inl rfl))
      · exact Or.inr (Or.inr (Or.inr rfl))
  have hs : (calculateSimilarityScores t1 t2).sequenceScore = sequenceSimilarity t1 t2 := rfl
  have hw : (calculateSimilarityScores t1 t2).wordScore = wordOverlap t1 t2 := rfl
  have hk : (calculateSimilarityScores t1 t2).keywordScore = keywordOverlap t1 t2 := rfl
  have hb : (calculateSimilarityScores t1 t2).substringScore = substringSimilarity t1 t2 := rfl
  refine ⟨by rw [hs]; exact hseq, by rw [hw]; exact hword, by rw [hk]; exact hkw,
          by rw [hb]; exact hsub, ⟨?_, ?_⟩, hle, hchoice⟩
  · exact le_trans hseq.1 (hs ▸ hle.1)
  · rcases hchoice with h | h | h | h <;> rw [h]
    · rw [hs]; exact hseq.2
    · rw [hw]; exact hword.2
    · rw [hk]; exact hkw.2
    · rw [hb]; exact hsub.2

end SRE

namespace SRE

/-- Insertion keeps exactly the old elements plus the new one. -/
theorem mem_insertByScore (m x : FuzzyMatchRec) :
    ∀ l, x ∈ insertByScore m l ↔ x = m ∨ x ∈ l := by
  intro l
  induction l with
  | nil => simp [insertByScore]
  | cons y ys ih =>
    simp only [insertByScore]
    split
    · simp [List.mem_cons]
    · simp only [List.mem_cons, ih]
      tauto

/-- Sorting keeps exactly the same elements. -/
theorem mem_sortByScoreDesc (x : FuzzyMatchRec) :
    ∀ l, x ∈ sortByScoreDesc l ↔ x ∈ l := by
  intro l
  induction l with
  | nil => simp [sortByScoreDesc]
  | cons y ys ih =>
    simp only [sortByScoreDesc, mem_insertByScore, ih, List.mem_cons]

/-- Lemma: `any` is invariant under the sort. -/
theorem any_sortByScoreDesc (l : List FuzzyMatchRec) (p : FuzzyMatchRec → Bool) :
    (sortByScoreDesc l).any p = l.any p := by
  rcases h : l.any p with _ | _
  · rw [List.any_eq_false] at h ⊢
    intro x hx
    exact h x ((mem_sortByScoreDesc x l).mp hx)
  · rw [List.any_eq_true] at h ⊢
    obtain ⟨x, hx, hp⟩ := h
    exact ⟨x, (mem_sortByScoreDesc x l).mpr hx, hp⟩

set_option maxRecDepth 8000 in
/-- C8 counterexample: for the Sentry title 'db timeout' and the JIRA
summary pool ['big timeout happens'], the scan assigns confidence 'high'
(the substring signal scores 0.8), although every candidate's
keyword-overlap (1/3) and sequence-similarity (18/29) are below 0.8 — so
'high' is NOT equivalent to a keyword or sequence signal of at least
0.8. -/
theorem C8_counterexample :
    suggestionConfidence
        (findMatchingJiraTickets "db timeout" ["big timeout happens"] (mkRat 7 10)) =
      "high" ∧
    (findMatchingJiraTickets "db timeout" ["big timeout happens"] (mkRat 7 10)).all
      (fun m => m.scores.keywordScore < mkRat 8 10 ∧ m.scores.sequenceScore < mkRat 8 10) =
      true ∧
    (findMatchingJiraTickets "db timeout" ["big timeout happens"] (mkRat 7 10)).length = 1 := by
  refine ⟨by decide, by decide, by decide⟩

/-- C8 amended: the suggestion's confidence bucket is 'high' exactly when
some candidate's FINAL max-of-four similarity score is at least 0.8 — any
of the four signals, not only keyword overlap or sequence similarity, can
trigger it — and otherwise it is 'medium' (the only other bucket); every
reported candidate's score is the max of its four scores and clears the
threshold. -/
theorem C8_confidence_amended (title : String) (pool : List String) (θ : ℚ) :
    (suggestionConfidence (findMatchingJiraTickets title pool θ) = "high" ↔
      ∃ m ∈ findMatchingJiraTickets title pool θ, mkRat 8 10 ≤ m.similarityScore) ∧
    (suggestionConfidence (findMatchingJiraTickets title pool θ) = "high" ∨
      suggestionConfidence (findMatchingJiraTickets title pool θ) = "medium") ∧
    (∀ m ∈ findMatchingJiraTickets title pool θ,
      m.similarityScore = maxScore m.scores ∧ θ ≤ m.similarityScore) := by
  refine ⟨?_, ?_, ?_⟩
  · rw [suggestionConfidence]
    split
    · rename_i hany
      simp only [List.any_eq_true, decide_eq_true_eq] at hany
      exact iff_of_true rfl hany
    · rename_i hany
      simp only [List.any_eq_true, decide_eq_true_eq] at hany
      exact iff_of_false (by decide) hany
  · rw [suggestionConfidence]
    split
    · exact Or.inl rfl
    · exact Or.inr rfl
  · intro m hm
    simp only [findMatchingJiraTickets] at hm
    split at hm
    · exact absurd hm (List.not_mem_nil m)
    · rw [mem_sortByScoreDesc] at hm
      obtain ⟨summary, hsum, heq⟩ := List.mem_filterMap.mp hm
      split at heq
      · rename_i hthr
        rw [Option.some.injEq] at heq
        subst heq
        exact ⟨rfl, hthr⟩
      · exact absurd heq (by simp)

/-- The concrete match record produced for the C8 inputs. -/
def matchW : FuzzyMatchRec :=
  { jiraSummary := "big timeout happens", similarityScore := mkRat 4 5,
    scores := { sequenceScore := mkRat 18 29, wordScore := mkRat 1 4,
                keywordScore := mkRat 1 3, substringScore := mkRat 4 5 },
    matchType := "good_substring_match" }

set_option maxRecDepth 8000 in
/-- Witness for C8: the amended per-candidate clause at the concrete
match. -/
theorem C8_witness :
    matchW.similarityScore = maxScore matchW.scores ∧ mkRat 7 10 ≤ matchW.similarityScore :=
  (C8_confidence_amended "db timeout" ["big timeout happens"] (mkRat 7 10)).2.2
    matchW (by decide)

end SRE
